import Mathlib

/-!
# Hotplate: a shallow embedding of `parallel_hotplate_v2.c`

The program relaxes a square `size x size` grid of temperatures held in two
generation buffers.  The embedding follows the C source function by function.

Modelling conventions:

* A buffer (`float*` / `float plate[size][size]`) is memory addressed by its
  flat offset from the base pointer, so `plate[row][col]` is offset
  `row*size + col`, exactly as the pointer arithmetic in `hotplate` spells out.
* The functions that compute with `float` values are written once, over any
  value type `α` that carries the operations the source uses (`+ - * /`, `fabsf`,
  `>=` and the literals).  They are read at two value types: the exact rationals
  `Temp` (the program in exact arithmetic) and `F32`, IEEE 754 binary32 with
  round-to-nearest-even, infinities and NaN (the program as compiled).
* `int` / `unsigned int` indices are natural numbers; the source arithmetic
  agrees with this for `1 <= size` as long as `size*size` fits the machine
  integer, which is what the allocation in `hotplate` requires anyway.
* The OpenMP region is modelled by its sequential execution: one worker runs
  every row of each work-sharing loop in increasing order.  The same loops under
  an arbitrary schedule for several workers are given next to it (`*_scheduled`).
-/

namespace Hotplate

/-- Temperatures: the `float` of the source, in exact arithmetic. -/
abbrev Temp := ℚ

/-- A `float` buffer addressed by flat offset from its base pointer. -/
abbrev Plate := Nat → Temp

/-- A `char` buffer (the `test` mask) addressed by flat offset. -/
abbrev Mask := Nat → Nat

/-- Offset of `plate[row][col]` in a `[size][size]` array. -/
def idx (size row col : Nat) : Nat := row * size + col

/-- The value `plate[row][col]` of a `[size][size]` array. -/
def cell {α : Type} (size : Nat) (plate : Nat → α) (row col : Nat) : α :=
  plate (idx size row col)

/-- Remaining-trip-count form of a counting loop: run `body i`, `body (i+1)`, ...
for `n` trips. -/
def loopFrom {σ : Type} (body : Nat → σ → σ) : Nat → Nat → σ → σ
  | 0, _, s => s
  | n + 1, i, s => loopFrom body n (i + 1) (body i s)

/-- The C loop `for (i = lo; i < hi; i++) body`. -/
def forLoop {σ : Type} (lo hi : Nat) (body : Nat → σ → σ) (s : σ) : σ :=
  loopFrom body (hi - lo) lo s

/-- Source `fabsf` on a value type. -/
class FAbs (α : Type) where
  /-- The absolute value as `fabsf` computes it. -/
  fabs : α → α

instance : FAbs ℚ := ⟨fun x => |x|⟩

section Program

variable {α : Type} [Add α] [Sub α] [Mul α] [Div α] [LE α]
  [DecidableRel (fun a b : α => a ≤ b)] [FAbs α]
  [OfNat α 0] [OfNat α 4] [OfNat α 8] [OfNat α 50] [OfNat α 100]

/-- The assignment `plate[row][col] = v`. -/
def store (size : Nat) (plate : (Nat → α)) (row col : Nat) (v : α) : (Nat → α) :=
  Function.update plate (idx size row col) v

/-- The assignment `test[row][col] = v` on the `char` mask. -/
def storeMask (size : Nat) (test : Mask) (row col : Nat) (v : Nat) : Mask :=
  Function.update test (idx size row col) v

/-- Source `set_static_cells`: when `size > 500`, pin row 400 columns `0..330`
and cell `(200,500)` to `100.0`. -/
def set_static_cells (size : Nat) (plate : (Nat → α)) : (Nat → α) :=
  if size > 500 then
    let plate := forLoop 0 331 (fun col p => store size p 400 col 100) plate
    store size plate 200 500 100
  else
    plate

/-- Source `initialize` (a reserved word in Lean, hence the longer name): the
left and right sides, the top row, the bottom row, the centre, then the static
cells. -/
def initialize_plate (size : Nat) (plate : (Nat → α)) : (Nat → α) :=
  -- initialize left and right sides
  let plate := forLoop 0 size
    (fun row p => store size (store size p row 0 0) row (size - 1) 0) plate
  -- initialize top and bottom
  let plate := forLoop 0 size (fun col p => store size p 0 col 0) plate
  let plate := forLoop 0 size (fun col p => store size p (size - 1) col 100) plate
  -- initialize center area
  let plate := forLoop 1 (size - 1)
    (fun row p => forLoop 1 (size - 1) (fun col q => store size q row col 50) p) plate
  -- initialize special cells
  set_static_cells size plate

/-- Source `initialize_test_cells`: clear the mask, then mark the static cells. -/
def initialize_test_cells (size : Nat) (test : Mask) : Mask :=
  let test := forLoop 0 size
    (fun row t => forLoop 0 size (fun col u => storeMask size u row col 0) t) test
  if size > 500 then
    let test := forLoop 0 331 (fun col t => storeMask size t 400 col 1) test
    storeMask size test 200 500 1
  else
    test

/-- The two generation buffers as `compute` sees them, over the value type `α`. -/
structure BuffersOf (α : Type) where
  current : (Nat → α)
  next : (Nat → α)

/-- Source `compute`: one stencil pass.  The row pointers `top`, `curr` and
`bottom` point into `current`; every element is read when its statement runs. -/
def compute (size : Nat) (current next : (Nat → α)) : BuffersOf α :=
  forLoop 1 (size - 1)
    (fun row b =>
      let top := (row + 1) * size
      let curr := row * size
      let bottom := (row - 1) * size
      forLoop 1 (size - 1)
        (fun col b =>
          let v := (b.current (bottom + col) + b.current (top + col)
                    + b.current (curr + (col - 1)) + b.current (curr + (col + 1))
                    + 4 * b.current (curr + col)) / 8
          { b with next := store size b.next row col v })
        b)
    { current := current, next := next }

/-- Source `swap`: exchange the two buffer pointers. -/
def swap (b : BuffersOf α) : BuffersOf α :=
  { current := b.next, next := b.current }

/-- Source `count_cells_by_degrees`: interior cells with `plate[row][col] >= temp`. -/
def count_cells_by_degrees (size : Nat) (plate : (Nat → α)) (temp : α) : Nat :=
  forLoop 1 (size - 1)
    (fun row count =>
      forLoop 1 (size - 1)
        (fun col count => if plate (idx size row col) ≥ temp then count + 1 else count)
        count)
    0

/-- The condition of the `if` in the convergence scan of `hotplate` at `(row, col)`:
`difference >= error && !test[row][col]`. -/
def exceeds (size : Nat) (error : α) (current_plate : (Nat → α)) (test : Mask)
    (row col : Nat) : Bool :=
  let average := (current_plate ((row - 1) * size + col)
                  + current_plate ((row + 1) * size + col)
                  + current_plate (row * size + col + 1)
                  + current_plate (row * size + col - 1)) / 4
  let difference := FAbs.fabs (current_plate (row * size + col) - average)
  decide (difference ≥ error) && decide (test (row * size + col) = 0)

/-- The inner column loop of the convergence scan, with its `break`:
`n` is the number of columns still to visit, `col` the next column. -/
def scan_cols (size : Nat) (error : α) (current_plate : (Nat → α)) (test : Mask)
    (row : Nat) : Nat → Nat → Bool → Bool
  | 0, _, keep_going => keep_going
  | n + 1, col, keep_going =>
    if exceeds size error current_plate test row col then
      true
    else
      scan_cols size error current_plate test row n (col + 1) keep_going

/-- The convergence scan of `hotplate`: the `row` loop over the inner loop. -/
def convergence_scan (size : Nat) (error : α) (current_plate : (Nat → α)) (test : Mask)
    (keep_going : Bool) : Bool :=
  forLoop 1 (size - 1)
    (fun row kg => scan_cols size error current_plate test row (size - 1 - 1) 1 kg)
    keep_going

/-- The cap on the iteration count in `hotplate`. -/
def MAX_ITERATIONS : Nat := 500

/-- The variables of `hotplate` that its loop changes, over the value type `α`. -/
structure StateOf (α : Type) where
  current_plate : (Nat → α)
  next_plate : (Nat → α)
  iterations : Nat
  keep_going : Bool
  it : Nat

/-- One trip through the body of the loop of `hotplate`, the `it++` included. -/
def iteration (size : Nat) (error : α) (test : Mask) (s : StateOf α) :
    StateOf α :=
  let b := compute size s.current_plate s.next_plate
  -- master: set static cells of next, swap pointers, count, reset keep_going
  let b := { b with next := set_static_cells size b.next }
  let b := swap b
  let iterations := s.iterations + 1
  let keep_going := false
  -- the convergence scan on the new current buffer
  let keep_going := convergence_scan size error b.current test keep_going
  { current_plate := b.current, next_plate := b.next, iterations := iterations,
    keep_going := keep_going, it := s.it + 1 }

/-- The loop `for (it = 0; it < MAX_ITERATIONS && keep_going; it++)`, run for at
most `fuel` trips. -/
def hotplate_loop (size : Nat) (error : α) (test : Mask) :
    Nat → StateOf α → StateOf α
  | 0, s => s
  | fuel + 1, s =>
    if s.it < MAX_ITERATIONS && s.keep_going then
      hotplate_loop size error test fuel (iteration size error test s)
    else
      s

/-- The state of `hotplate` on entry to its loop; `mem_current` and `mem_next`
are the contents of the freshly allocated buffers. -/
def hotplate_init (size : Nat) (mem_current mem_next : (Nat → α)) : StateOf α :=
  { current_plate := initialize_plate size mem_current, next_plate := initialize_plate size mem_next,
    iterations := 0, keep_going := true, it := 0 }

/-- The state of `hotplate` when its loop has been left. -/
def hotplate_final (size : Nat) (error : α) (mem_current mem_next : (Nat → α))
    (mem_test : Mask) : StateOf α :=
  hotplate_loop size error (initialize_test_cells size mem_test) MAX_ITERATIONS
    (hotplate_init size mem_current mem_next)

/-- Source `hotplate`: the two outputs `*iterations` and `*cell_count_gt_50_degrees`. -/
def hotplate (size : Nat) (error : α) (mem_current mem_next : (Nat → α)) (mem_test : Mask) :
    Nat × Nat :=
  let s := hotplate_final size error mem_current mem_next mem_test
  (s.iterations, count_cells_by_degrees size s.current_plate 50)

/-- The two generation buffers in exact arithmetic. -/
abbrev Buffers := BuffersOf Temp

/-- The variables of `hotplate` in exact arithmetic. -/
abbrev HotplateState := StateOf Temp

/-- The static-source coordinates for a given `size`: none up to 500, above it
row 400 columns `0..330` and the cell `(200,500)`. -/
def isStaticCell (size row col : Nat) : Prop :=
  500 < size ∧ ((row = 400 ∧ col < 331) ∨ (row = 200 ∧ col = 500))

instance (size row col : Nat) : Decidable (isStaticCell size row col) := by
  unfold isStaticCell
  infer_instance

/-- Interior cells: rows and columns `1 .. size-2`. -/
def isInterior (size row col : Nat) : Prop :=
  1 ≤ row ∧ row ≤ size - 2 ∧ 1 ≤ col ∧ col ≤ size - 2

instance (size row col : Nat) : Decidable (isInterior size row col) := by
  unfold isInterior
  infer_instance

/-- The convergence scan without the `break`: every cell of every interior row
is visited and any exceeding cell sets the flag. -/
def convergence_scan_full (size : Nat) (error : α) (current_plate : (Nat → α)) (test : Mask)
    (keep_going : Bool) : Bool :=
  forLoop 1 (size - 1)
    (fun row kg =>
      forLoop 1 (size - 1)
        (fun col kg => if exceeds size error current_plate test row col then true else kg)
        kg)
    keep_going

/-- The single-grid step named by the boundary claim: every interior cell takes
the stencil value of the previous grid, every other cell keeps its value, and
then the static cells are pinned. -/
def single_grid_step (size : Nat) (g : (Nat → α)) : (Nat → α) :=
  set_static_cells size (fun j =>
    let r := j / size
    let c := j % size
    if isInterior size r c then
      (cell size g (r - 1) c + cell size g (r + 1) c + cell size g r (c - 1)
        + cell size g r (c + 1) + 4 * cell size g r c) / 8
    else
      g j)

/-! ### The work-sharing loops under a schedule

`compute` and the convergence scan are OpenMP work-sharing loops with
`schedule(dynamic)`: each interior row goes to exactly one worker, in an order fixed
only at run time.  A schedule records, for one trip, the order in which the stores of
`compute` take effect (any interleaving of the workers' rows) and the rows each
worker scans; the reduction `||` joins the workers' private flags. -/

/-- The statement `next[row][col] = ...` of `compute`, with the row pointers of
its row. -/
def compute_store (size row col : Nat) (b : BuffersOf α) : BuffersOf α :=
  let top := (row + 1) * size
  let curr := row * size
  let bottom := (row - 1) * size
  let v := (b.current (bottom + col) + b.current (top + col)
            + b.current (curr + (col - 1)) + b.current (curr + (col + 1))
            + 4 * b.current (curr + col)) / 8
  { b with next := store size b.next row col v }

/-- The cells `compute` stores to, in the order of the sequential loops. -/
def interior_cells (size : Nat) : List (Nat × Nat) :=
  (List.range' 1 (size - 2)).flatMap
    (fun row => (List.range' 1 (size - 2)).map (fun col => (row, col)))

/-- Source `compute` when its stores take effect in the order `cells`. -/
def compute_scheduled (size : Nat) (cells : List (Nat × Nat)) (current next : Nat → α) :
    BuffersOf α :=
  cells.foldl (fun b p => compute_store size p.1 p.2 b) { current := current, next := next }

/-- The private flag of one worker of the convergence scan: it starts false (the
identity of `||`) and the worker runs the column loop on each of its rows. -/
def scan_worker (size : Nat) (error : α) (current_plate : Nat → α) (test : Mask)
    (rows : List Nat) : Bool :=
  rows.foldl
    (fun kg row => scan_cols size error current_plate test row (size - 1 - 1) 1 kg) false

/-- The convergence scan with its rows split among workers: `reduction(||: keep_going)`
joins the shared flag with the private flag of every worker. -/
def convergence_scan_scheduled (size : Nat) (error : α) (current_plate : Nat → α)
    (test : Mask) (workers : List (List Nat)) (keep_going : Bool) : Bool :=
  workers.foldl
    (fun kg rows => kg || scan_worker size error current_plate test rows) keep_going

/-- The schedule of one trip: the order of the stores of `compute` and the rows
each worker takes in the convergence scan. -/
structure Schedule where
  compute_cells : List (Nat × Nat)
  scan_rows : List (List Nat)

/-- A schedule for `workers` workers on a grid of side `size`: every interior cell
is stored exactly once, there is one list of scan rows per worker, and every
interior row is scanned by exactly one worker. -/
def Schedule.valid (size workers : Nat) (sch : Schedule) : Prop :=
  sch.compute_cells.Perm (interior_cells size) ∧
  sch.scan_rows.length = workers ∧
  sch.scan_rows.flatten.Perm (List.range' 1 (size - 2))

/-- One trip of the loop of `hotplate` under the schedule `sch`. -/
def iteration_scheduled (size : Nat) (error : α) (test : Mask) (sch : Schedule)
    (s : StateOf α) : StateOf α :=
  let b := compute_scheduled size sch.compute_cells s.current_plate s.next_plate
  let b := { b with next := set_static_cells size b.next }
  let b := swap b
  let iterations := s.iterations + 1
  let keep_going := false
  let keep_going :=
    convergence_scan_scheduled size error b.current test sch.scan_rows keep_going
  { current_plate := b.current, next_plate := b.next, iterations := iterations,
    keep_going := keep_going, it := s.it + 1 }

/-- The loop of `hotplate` when trip number `it` runs under the schedule `sched it`. -/
def hotplate_loop_scheduled (size : Nat) (error : α) (test : Mask) (sched : Nat → Schedule) :
    Nat → StateOf α → StateOf α
  | 0, s => s
  | fuel + 1, s =>
    if s.it < MAX_ITERATIONS && s.keep_going then
      hotplate_loop_scheduled size error test sched fuel
        (iteration_scheduled size error test (sched s.it) s)
    else
      s

/-- The state of `hotplate` when its loop has been left, under the schedules `sched`. -/
def hotplate_final_scheduled (size : Nat) (error : α) (mem_current mem_next : Nat → α)
    (mem_test : Mask) (sched : Nat → Schedule) : StateOf α :=
  hotplate_loop_scheduled size error (initialize_test_cells size mem_test) sched
    MAX_ITERATIONS (hotplate_init size mem_current mem_next)

/-- Source `hotplate` under the schedules `sched`: its two outputs. -/
def hotplate_scheduled (size : Nat) (error : α) (mem_current mem_next : Nat → α)
    (mem_test : Mask) (sched : Nat → Schedule) : Nat × Nat :=
  let s := hotplate_final_scheduled size error mem_current mem_next mem_test sched
  (s.iterations, count_cells_by_degrees size s.current_plate 50)

end Program

/-! ## Binary32 arithmetic

The `float` of the source is IEEE 754 binary32.  Every operation computes the
exact result and rounds it to nearest, ties to even; results too large become
infinities and invalid operations give a NaN. -/

/-- An IEEE 754 binary32 value: a finite value `(-1)^neg * m * 2^e` with
`m < 2^24`, `-149 <= e <= 104` and `2^23 <= m` unless `e = -149`, an infinity, or
a NaN. -/
inductive F32 where
  | finite (neg : Bool) (m : Nat) (e : Int)
  | inf (neg : Bool)
  | nan
  deriving DecidableEq

namespace F32

/-- The position of the leading bit of `n` (0 for `n < 2`), by halving at most
`fuel` times. -/
def ilog2 : Nat → Nat → Nat
  | 0, _ => 0
  | fuel + 1, n => if n < 2 then 0 else ilog2 fuel (n / 2) + 1

/-- Round the exact value `(-1)^neg * n * 2^e` to binary32, to nearest, ties to
even. -/
def round (neg : Bool) (n : Nat) (e : Int) : F32 :=
  if n = 0 then
    finite neg 0 (-149)
  else
    let q : Int := max (Int.ofNat (ilog2 n n) + e - 23) (-149)
    if q ≤ e then
      if q > 104 then inf neg else finite neg (n * 2 ^ (e - q).toNat) q
    else
      let s := (q - e).toNat
      let m0 := n / 2 ^ s
      let rem := n % 2 ^ s
      let half := 2 ^ (s - 1)
      let m := if rem > half ∨ (rem = half ∧ m0 % 2 = 1) then m0 + 1 else m0
      let m2 := if m = 2 ^ 24 then 2 ^ 23 else m
      let q2 := if m = 2 ^ 24 then q + 1 else q
      if q2 > 104 then inf neg else finite neg m2 q2

/-- Sign change. -/
def negate : F32 → F32
  | finite neg m e => finite (!neg) m e
  | inf neg => inf (!neg)
  | nan => nan

/-- Binary32 addition. -/
def add : F32 → F32 → F32
  | nan, _ => nan
  | _, nan => nan
  | inf a, inf b => if a = b then inf a else nan
  | inf a, finite _ _ _ => inf a
  | finite _ _ _, inf b => inf b
  | finite n1 m1 e1, finite n2 m2 e2 =>
    let e := min e1 e2
    let a := m1 * 2 ^ (e1 - e).toNat
    let b := m2 * 2 ^ (e2 - e).toNat
    if n1 = n2 then round n1 (a + b) e
    else if a = b then finite false 0 (-149)
    else if b < a then round n1 (a - b) e
    else round n2 (b - a) e

/-- Binary32 subtraction. -/
def sub (x y : F32) : F32 := add x (negate y)

/-- Binary32 multiplication. -/
def mul : F32 → F32 → F32
  | nan, _ => nan
  | _, nan => nan
  | inf a, inf b => inf (xor a b)
  | inf a, finite n m _ => if m = 0 then nan else inf (xor a n)
  | finite n m _, inf b => if m = 0 then nan else inf (xor n b)
  | finite n1 m1 e1, finite n2 m2 e2 => round (xor n1 n2) (m1 * m2) (e1 + e2)

/-- Binary32 division. -/
def div : F32 → F32 → F32
  | nan, _ => nan
  | _, nan => nan
  | inf _, inf _ => nan
  | inf a, finite n _ _ => inf (xor a n)
  | finite n _ _, inf b => finite (xor n b) 0 (-149)
  | finite n1 m1 e1, finite n2 m2 e2 =>
    if m2 = 0 then
      if m1 = 0 then nan else inf (xor n1 n2)
    else
      let t := 27 + ilog2 m2 m2
      let quo := m1 * 2 ^ t / m2
      let sticky := if m1 * 2 ^ t % m2 = 0 then 0 else 1
      round (xor n1 n2) (2 * quo + sticky) (e1 - e2 - Int.ofNat t - 1)

/-- Source `fabsf`. -/
def fabs : F32 → F32
  | finite _ m e => finite false m e
  | inf _ => inf false
  | nan => nan

/-- Binary32 comparison `x <= y`; false when either side is a NaN. -/
def le : F32 → F32 → Bool
  | nan, _ => false
  | _, nan => false
  | inf a, inf b => a || !b
  | inf a, finite _ _ _ => a
  | finite _ _ _, inf b => !b
  | finite n1 m1 e1, finite n2 m2 e2 =>
    let e := min e1 e2
    let a := m1 * 2 ^ (e1 - e).toNat
    let b := m2 * 2 ^ (e2 - e).toNat
    if n1 then
      if n2 then decide (b ≤ a) else true
    else
      if n2 then decide (a = 0 ∧ b = 0) else decide (a ≤ b)

/-- Binary32 comparison `x < y`; false when either side is a NaN. -/
def lt (x y : F32) : Bool := le x y && !(le y x)

/-- The binary32 value of a natural-number literal. -/
def ofNat (n : Nat) : F32 := round false n 0

/-- The binary32 value with a given bit pattern. -/
def ofBits (b : Nat) : F32 :=
  let neg := decide (b / 2 ^ 31 % 2 = 1)
  let ex := b / 2 ^ 23 % 2 ^ 8
  let fr := b % 2 ^ 23
  if ex = 255 then
    if fr = 0 then inf neg else nan
  else if ex = 0 then finite neg fr (-149)
  else finite neg (2 ^ 23 + fr) (Int.ofNat ex - 150)

/-- The bit pattern of a binary32 value (NaN as the quiet NaN `0x7FC00000`). -/
def toBits : F32 → Nat
  | nan => 0x7FC00000
  | inf neg => (if neg then 2 ^ 31 else 0) + 255 * 2 ^ 23
  | finite neg m e =>
    (if neg then 2 ^ 31 else 0) +
      (if m < 2 ^ 23 then m else ((e + 150).toNat) * 2 ^ 23 + (m - 2 ^ 23))

/-- The exact rational value of a finite binary32 value (0 for infinities and NaN). -/
def toRat : F32 → ℚ
  | finite neg m e => (if neg then -1 else 1) * ((m : ℚ) * 2 ^ (e + 149).toNat / 2 ^ 149)
  | _ => 0

end F32

instance : Add F32 := ⟨F32.add⟩
instance : Sub F32 := ⟨F32.sub⟩
instance : Mul F32 := ⟨F32.mul⟩
instance : Div F32 := ⟨F32.div⟩
instance : LE F32 := ⟨fun x y => F32.le x y = true⟩
instance : LT F32 := ⟨fun x y => F32.lt x y = true⟩
instance : DecidableRel (fun x y : F32 => x < y) := fun x y =>
  inferInstanceAs (Decidable (F32.lt x y = true))
instance : DecidableRel (fun x y : F32 => x ≤ y) := fun x y =>
  inferInstanceAs (Decidable (F32.le x y = true))
instance (n : Nat) : OfNat F32 n := ⟨F32.ofNat n⟩
instance : FAbs F32 := ⟨F32.fabs⟩

/-- A binary32 buffer given by the bit patterns of its first cells (zero beyond). -/
def plateOfBits (l : List Nat) : Nat → F32 :=
  fun j => F32.ofBits (l.getD j 0)

/-- The grids of the binary32 run of `hotplate` for `size = 6`, as bit patterns row
by row: entry `k` is the current buffer after `k` trips, entry 0 the initial grid.
They are data to follow that run; the theorems check each entry against the program. -/
def run6_bits : List (List Nat) :=
  [
    [0x00000000, 0x00000000, 0x00000000, 0x00000000, 0x00000000, 0x00000000,
     0x00000000, 0x42480000, 0x42480000, 0x42480000, 0x42480000, 0x00000000,
     0x00000000, 0x42480000, 0x42480000, 0x42480000, 0x42480000, 0x00000000,
     0x00000000, 0x42480000, 0x42480000, 0x42480000, 0x42480000, 0x00000000,
     0x00000000, 0x42480000, 0x42480000, 0x42480000, 0x42480000, 0x00000000,
     0x42C80000, 0x42C80000, 0x42C80000, 0x42C80000, 0x42C80000, 0x42C80000],
    [0x00000000, 0x00000000, 0x00000000, 0x00000000, 0x00000000, 0x00000000,
     0x00000000, 0x42160000, 0x422F0000, 0x422F0000, 0x42160000, 0x00000000,
     0x00000000, 0x422F0000, 0x42480000, 0x42480000, 0x422F0000, 0x00000000,
     0x00000000, 0x422F0000, 0x42480000, 0x42480000, 0x422F0000, 0x00000000,
     0x00000000, 0x42480000, 0x42610000, 0x42610000, 0x42480000, 0x00000000,
     0x42C80000, 0x42C80000, 0x42C80000, 0x42C80000, 0x42C80000, 0x42C80000],
    [0x00000000, 0x00000000, 0x00000000, 0x00000000, 0x00000000, 0x00000000,
     0x00000000, 0x41ED8000, 0x42192000, 0x42192000, 0x41ED8000, 0x00000000,
     0x00000000, 0x42192000, 0x4241C000, 0x4241C000, 0x42192000, 0x00000000,
     0x00000000, 0x421F6000, 0x42480000, 0x42480000, 0x421F6000, 0x00000000,
     0x00000000, 0x42480000, 0x4270A000, 0x4270A000, 0x42480000, 0x00000000,
     0x42C80000, 0x42C80000, 0x42C80000, 0x42C80000, 0x42C80000, 0x42C80000],
    [0x00000000, 0x00000000, 0x00000000, 0x00000000, 0x00000000, 0x00000000,
     0x00000000, 0x41C35000, 0x4206C400, 0x4206C400, 0x41C35000, 0x00000000,
     0x00000000, 0x42078C00, 0x42386000, 0x42386000, 0x42078C00, 0x00000000,
     0x00000000, 0x4214D400, 0x42473800, 0x42473800, 0x4214D400, 0x00000000,
     0x00000000, 0x42480000, 0x427A6400, 0x427A6400, 0x42480000, 0x00000000,
     0x42C80000, 0x42C80000, 0x42C80000, 0x42C80000, 0x42C80000, 0x42C80000],
    [0x00000000, 0x00000000, 0x00000000, 0x00000000, 0x00000000, 0x00000000,
     0x00000000, 0x41A53C00, 0x41EEF700, 0x41EEF700, 0x41A53C00, 0x00000000,
     0x00000000, 0x41F34300, 0x422DED00, 0x422DED00, 0x41F34300, 0x00000000,
     0x00000000, 0x420D4280, 0x42457600, 0x42457600, 0x420D4280, 0x00000000,
     0x00000000, 0x4247E700, 0x428032C0, 0x428032C0, 0x4247E700, 0x00000000,
     0x42C80000, 0x42C80000, 0x42C80000, 0x42C80000, 0x42C80000, 0x42C80000],
    [0x00000000, 0x00000000, 0x00000000, 0x00000000, 0x00000000, 0x00000000,
     0x00000000, 0x418EE540, 0x41D57D20, 0x41D57D20, 0x418EE540, 0x00000000,
     0x00000000, 0x41DD14E0, 0x42238680, 0x42238680, 0x41DD14E0, 0x00000000,
     0x00000000, 0x42078110, 0x4242DC60, 0x4242DC60, 0x42078110, 0x00000000,
     0x00000000, 0x4247A880, 0x4281F588, 0x4281F588, 0x4247A880, 0x00000000,
     0x42C80000, 0x42C80000, 0x42C80000, 0x42C80000, 0x42C80000, 0x42C80000],
    [0x00000000, 0x00000000, 0x00000000, 0x00000000, 0x00000000, 0x00000000,
     0x00000000, 0x417B89C0, 0x41C02C7C, 0x41C02C7C, 0x417B89C0, 0x00000000,
     0x00000000, 0x41CB28FC, 0x4219B8BC, 0x4219B8BC, 0x41CB28FC, 0x00000000,
     0x00000000, 0x4202E272, 0x423FA810, 0x423FA810, 0x4202E272, 0x00000000,
     0x00000000, 0x424741C4, 0x4282E1C3, 0x4282E1C3, 0x424741C4, 0x00000000,
     0x42C80000, 0x42C80000, 0x42C80000, 0x42C80000, 0x42C80000, 0x42C80000],
    [0x00000000, 0x00000000, 0x00000000, 0x00000000, 0x00000000, 0x00000000,
     0x00000000, 0x41609A3E, 0x41AE4298, 0x41AE4298, 0x41609A3E, 0x00000000,
     0x00000000, 0x41BC73E6, 0x4210BDCF, 0x4210BDCF, 0x41BC73E6, 0x00000000,
     0x00000000, 0x41FE0206, 0x423C14E0, 0x423C14E0, 0x41FE0206, 0x00000000,
     0x00000000, 0x4246B5A1, 0x42833BB7, 0x42833BB8, 0x4246B5A1, 0x00000000,
     0x42C80000, 0x42C80000, 0x42C80000, 0x42C80000, 0x42C80000, 0x42C80000],
    [0x00000000, 0x00000000, 0x00000000, 0x00000000, 0x00000000, 0x00000000,
     0x00000000, 0x414AFABE, 0x419F22B6, 0x419F22B6, 0x414AFABE, 0x00000000,
     0x00000000, 0x41B0334B, 0x4208A4A6, 0x4208A4A6, 0x41B0334B, 0x00000000,
     0x00000000, 0x41F74220, 0x423853D4, 0x423853D4, 0x41F74220, 0x00000000,
     0x00000000, 0x424609DE, 0x428331FA, 0x428331FB, 0x424609DF, 0x00000000,
     0x42C80000, 0x42C80000, 0x42C80000, 0x42C80000, 0x42C80000, 0x42C80000],
    [0x00000000, 0x00000000, 0x00000000, 0x00000000, 0x00000000, 0x00000000,
     0x00000000, 0x413952DF, 0x41924E87, 0x41924E87, 0x413952DF, 0x00000000,
     0x00000000, 0x41A5DABF, 0x420166C2, 0x420166C2, 0x41A5DABF, 0x00000000,
     0x00000000, 0x41F13EE6, 0x4234899A, 0x4234899A, 0x41F13EE6, 0x00000000,
     0x00000000, 0x42454590, 0x4282E518, 0x4282E518, 0x42454590, 0x00000000,
     0x42C80000, 0x42C80000, 0x42C80000, 0x42C80000, 0x42C80000, 0x42C80000],
    [0x00000000, 0x00000000, 0x00000000, 0x00000000, 0x00000000, 0x00000000,
     0x00000000, 0x412AB3C1, 0x41875FF3, 0x41875FF3, 0x412AB3C1, 0x00000000,
     0x00000000, 0x419D041A, 0x41F5E802, 0x41F5E802, 0x419D041A, 0x00000000,
     0x00000000, 0x41EBCE96, 0x4230D00D, 0x4230D00D, 0x41EBCE96, 0x00000000,
     0x00000000, 0x42446FFC, 0x42826C22, 0x42826C22, 0x42446FFC, 0x00000000,
     0x42C80000, 0x42C80000, 0x42C80000, 0x42C80000, 0x42C80000, 0x42C80000],
    [0x00000000, 0x00000000, 0x00000000, 0x00000000, 0x00000000, 0x00000000,
     0x00000000, 0x411E72E4, 0x417C0868, 0x417C0868, 0x411E72E4, 0x00000000,
     0x00000000, 0x4195641C, 0x41EA7186, 0x41EA7186, 0x4195641C, 0x00000000,
     0x00000000, 0x41E6D7D0, 0x422D387A, 0x422D387A, 0x41E6D7D0, 0x00000000,
     0x00000000, 0x42438FF0, 0x4281D796, 0x4281D796, 0x42438FF0, 0x00000000,
     0x42C80000, 0x42C80000, 0x42C80000, 0x42C80000, 0x42C80000, 0x42C80000],
    [0x00000000, 0x00000000, 0x00000000, 0x00000000, 0x00000000, 0x00000000,
     0x00000000, 0x41141386, 0x416BEFFF, 0x416BEFFF, 0x41141386, 0x00000000,
     0x00000000, 0x418EC267, 0x41E0421C, 0x41E0421C, 0x418EC267, 0x00000000,
     0x00000000, 0x41E24A86, 0x4229CDC7, 0x4229CDC7, 0x41E24A86, 0x00000000,
     0x00000000, 0x4242AB5A, 0x42813344, 0x42813344, 0x4242AB5A, 0x00000000,
     0x42C80000, 0x42C80000, 0x42C80000, 0x42C80000, 0x42C80000, 0x42C80000],
    [0x00000000, 0x00000000, 0x00000000, 0x00000000, 0x00000000, 0x00000000,
     0x00000000, 0x410B385C, 0x415E08F8, 0x415E08F8, 0x410B385C, 0x00000000,
     0x00000000, 0x4188F400, 0x41D73410, 0x41D73410, 0x4188F400, 0x00000000,
     0x00000000, 0x41DE1BD8, 0x42269638, 0x42269638, 0x41DE1BD8, 0x00000000,
     0x00000000, 0x4241C726, 0x4280879C, 0x4280879C, 0x4241C726, 0x00000000,
     0x42C80000, 0x42C80000, 0x42C80000, 0x42C80000, 0x42C80000, 0x42C80000],
    [0x00000000, 0x00000000, 0x00000000, 0x00000000, 0x00000000, 0x00000000,
     0x00000000, 0x41039A4D, 0x4151F9AA, 0x4151F9AA, 0x41039A4D, 0x00000000,
     0x00000000, 0x4183D783, 0x41CF2528, 0x41CF2528, 0x4183D783, 0x00000000,
     0x00000000, 0x41DA43C4, 0x422394C8, 0x422394C8, 0x41DA43C4, 0x00000000,
     0x00000000, 0x4240E738, 0x427FB52F, 0x427FB52F, 0x4240E738, 0x00000000,
     0x42C80000, 0x42C80000, 0x42C80000, 0x42C80000, 0x42C80000, 0x42C80000],
    [0x00000000, 0x00000000, 0x00000000, 0x00000000, 0x00000000, 0x00000000,
     0x00000000, 0x40FA0479, 0x4147789E, 0x4147789E, 0x40FA0479, 0x00000000,
     0x00000000, 0x417EA508, 0x41C7F6F6, 0x41C7F6F6, 0x417EA508, 0x00000000,
     0x00000000, 0x41D6BBD2, 0x4220CA32, 0x4220CA32, 0x41D6BBD2, 0x00000000,
     0x00000000, 0x42400E7E, 0x427E60BE, 0x427E60BE, 0x42400E7E, 0x00000000,
     0x42C80000, 0x42C80000, 0x42C80000, 0x42C80000, 0x42C80000, 0x42C80000],
    [0x00000000, 0x00000000, 0x00000000, 0x00000000, 0x00000000, 0x00000000,
     0x00000000, 0x40EE89A6, 0x413E4968, 0x413E4968, 0x40EE89A6, 0x00000000,
     0x00000000, 0x41769F7E, 0x41C18EC1, 0x41C18EC0, 0x41769F7E, 0x00000000,
     0x00000000, 0x41D37E66, 0x421E35A3, 0x421E35A3, 0x41D37E66, 0x00000000,
     0x00000000, 0x423F3F14, 0x427D178D, 0x427D178D, 0x423F3F14, 0x00000000,
     0x42C80000, 0x42C80000, 0x42C80000, 0x42C80000, 0x42C80000, 0x42C80000],
    [0x00000000, 0x00000000, 0x00000000, 0x00000000, 0x00000000, 0x00000000,
     0x00000000, 0x40E47F0C, 0x41363A2C, 0x41363A2C, 0x40E47F0C, 0x00000000,
     0x00000000, 0x416F7BA3, 0x41BBD530, 0x41BBD530, 0x416F7BA3, 0x00000000,
     0x00000000, 0x41D08659, 0x421BD54A, 0x421BD54A, 0x41D08659, 0x00000000,
     0x00000000, 0x423E7A62, 0x427BDD4F, 0x427BDD4F, 0x423E7A62, 0x00000000,
     0x42C80000, 0x42C80000, 0x42C80000, 0x42C80000, 0x42C80000, 0x42C80000],
    [0x00000000, 0x00000000, 0x00000000, 0x00000000, 0x00000000, 0x00000000,
     0x00000000, 0x40DBACFA, 0x412F2198, 0x412F2198, 0x40DBACFA, 0x00000000,
     0x00000000, 0x41691CA4, 0x41B6B5EE, 0x41B6B5ED, 0x41691CA4, 0x00000000,
     0x00000000, 0x41CDCED2, 0x4219A6B1, 0x4219A6B1, 0x41CDCED2, 0x00000000,
     0x00000000, 0x423DC140, 0x427AB446, 0x427AB446, 0x423DC140, 0x00000000,
     0x42C80000, 0x42C80000, 0x42C80000, 0x42C80000, 0x42C80000, 0x42C80000]]

/-- Entry `k` of `run6_bits` as a buffer. -/
def run6_grid (k : Nat) : Nat → F32 :=
  plateOfBits (run6_bits.getD k [])

/-! ## Loops and offsets -/

theorem idx_inj {size r c r2 c2 : Nat} (hc : c < size) (hc2 : c2 < size)
    (h : idx size r c = idx size r2 c2) : r = r2 ∧ c = c2 := by
  unfold idx at h
  have h1 : (r * size + c) / size = (r2 * size + c2) / size := by rw [h]
  have hpos : 0 < size := by omega
  rw [Nat.mul_comm r size, Nat.mul_comm r2 size, Nat.mul_add_div hpos, Nat.mul_add_div hpos,
    Nat.div_eq_of_lt hc, Nat.div_eq_of_lt hc2] at h1
  simp only [Nat.add_zero] at h1
  subst h1
  exact ⟨rfl, by omega⟩

theorem idx_lt {size r c : Nat} (hr : r < size) (hc : c < size) :
    idx size r c < size * size := by
  unfold idx
  have : (r + 1) * size ≤ size * size := Nat.mul_le_mul_right size hr
  have h2 : (r + 1) * size = r * size + size := by ring
  omega

theorem forLoop_eq {σ : Type} (lo hi : Nat) (body : Nat → σ → σ) (s : σ) :
    forLoop lo hi body s = loopFrom body (hi - lo) lo s := rfl

/-- A loop whose trips each overwrite the addresses `W k` of a view of the state
with values that depend on the address only, under an invariant `I`; the trip
numbers are known to be at least `lo`. -/
theorem loopFrom_writes {σ α : Type} (view : σ → Nat → α) (I : σ → Prop)
    (body : Nat → σ → σ) (W : Nat → Nat → Prop) (val : Nat → α) (lo : Nat)
    (hI : ∀ k s, lo ≤ k → I s → I (body k s))
    (hin : ∀ k s j, lo ≤ k → I s → W k j → view (body k s) j = val j)
    (hout : ∀ k s j, lo ≤ k → I s → ¬ W k j → view (body k s) j = view s j) :
    ∀ (n i : Nat) (s : σ), lo ≤ i → I s →
      I (loopFrom body n i s) ∧
      (∀ j, (∃ k, i ≤ k ∧ k < i + n ∧ W k j) → view (loopFrom body n i s) j = val j) ∧
      (∀ j, (¬ ∃ k, i ≤ k ∧ k < i + n ∧ W k j) → view (loopFrom body n i s) j = view s j) := by
  intro n
  induction n with
  | zero =>
    intro i s _ hs
    refine ⟨hs, ?_, ?_⟩
    · rintro j ⟨k, h1, h2, _⟩
      omega
    · intro j _
      rfl
  | succ n ih =>
    intro i s hi hs
    obtain ⟨h1, h2, h3⟩ := ih (i + 1) (body i s) (by omega) (hI i s hi hs)
    refine ⟨h1, ?_, ?_⟩
    · rintro j ⟨k, hk1, hk2, hk3⟩
      by_cases hlater : ∃ k, i + 1 ≤ k ∧ k < i + 1 + n ∧ W k j
      · exact h2 j hlater
      · have hki : k = i := by
          by_contra hne
          exact hlater ⟨k, by omega, by omega, hk3⟩
        subst hki
        show view (loopFrom body n (k + 1) (body k s)) j = val j
        rw [h3 j hlater]
        exact hin k s j hi hs hk3
    · intro j hj
      have hlater : ¬ ∃ k, i + 1 ≤ k ∧ k < i + 1 + n ∧ W k j := by
        rintro ⟨k, hk1, hk2, hk3⟩
        exact hj ⟨k, by omega, by omega, hk3⟩
      have hnow : ¬ W i j := fun hw => hj ⟨i, le_refl i, by omega, hw⟩
      show view (loopFrom body n (i + 1) (body i s)) j = view s j
      rw [h3 j hlater]
      exact hout i s j hi hs hnow

/-- The rule `loopFrom_writes` for `forLoop lo hi`. -/
theorem forLoop_writes {σ α : Type} (view : σ → Nat → α) (I : σ → Prop)
    (body : Nat → σ → σ) (W : Nat → Nat → Prop) (val : Nat → α) (lo hi : Nat)
    (hI : ∀ k s, lo ≤ k → I s → I (body k s))
    (hin : ∀ k s j, lo ≤ k → I s → W k j → view (body k s) j = val j)
    (hout : ∀ k s j, lo ≤ k → I s → ¬ W k j → view (body k s) j = view s j)
    (s : σ) (hs : I s) :
    I (forLoop lo hi body s) ∧
    (∀ j, (∃ k, lo ≤ k ∧ k < hi ∧ W k j) → view (forLoop lo hi body s) j = val j) ∧
    (∀ j, (¬ ∃ k, lo ≤ k ∧ k < hi ∧ W k j) → view (forLoop lo hi body s) j = view s j) := by
  obtain ⟨h1, h2, h3⟩ :=
    loopFrom_writes view I body W val lo hI hin hout (hi - lo) lo s (le_refl lo) hs
  refine ⟨h1, ?_, ?_⟩
  · rintro j ⟨k, hk1, hk2, hk3⟩
    exact h2 j ⟨k, hk1, by omega, hk3⟩
  · intro j hj
    apply h3 j
    rintro ⟨k, hk1, hk2, hk3⟩
    exact hj ⟨k, hk1, by omega, hk3⟩

/-- A loop of stores of one constant `v`, trip `k` writing the addresses `W k`. -/
theorem forLoop_const {α : Type} (body : Nat → (Nat → α) → (Nat → α))
    (W : Nat → Nat → Prop) (v : α)
    (hin : ∀ k p j, W k j → body k p j = v)
    (hout : ∀ k p j, ¬ W k j → body k p j = p j)
    (lo hi : Nat) (p : Nat → α) :
    (∀ j, (∃ k, lo ≤ k ∧ k < hi ∧ W k j) → forLoop lo hi body p j = v) ∧
    (∀ j, (¬ ∃ k, lo ≤ k ∧ k < hi ∧ W k j) → forLoop lo hi body p j = p j) :=
  (forLoop_writes (fun q => q) (fun _ => True) body W (fun _ => v) lo hi
    (fun _ _ _ _ => trivial) (fun k q j _ _ h => hin k q j h) (fun k q j _ _ h => hout k q j h)
    p trivial).2

theorem store_same {α : Type}
    (size : Nat) (p : (Nat → α)) (r c : Nat) (v : α) :
    store size p r c v (idx size r c) = v := by
  simp [store]

theorem store_other {α : Type}
    (size : Nat) (p : (Nat → α)) (r c : Nat) (v : α) (j : Nat)
    (h : j ≠ idx size r c) : store size p r c v j = p j := by
  simp [store, Function.update, h]

theorem storeMask_same (size : Nat) (t : Mask) (r c v : Nat) :
    storeMask size t r c v (idx size r c) = v := by
  simp [storeMask]

theorem storeMask_other (size : Nat) (t : Mask) (r c v : Nat) (j : Nat)
    (h : j ≠ idx size r c) : storeMask size t r c v j = t j := by
  simp [storeMask, Function.update, h]

/-- A loop over `col` storing the constant `v` along row `row`. -/
theorem row_store_loop {α : Type}
    (size row lo hi : Nat) (v : α) (p : (Nat → α)) :
    (∀ j, (∃ k, lo ≤ k ∧ k < hi ∧ j = idx size row k) →
      forLoop lo hi (fun col q => store size q row col v) p j = v) ∧
    (∀ j, (¬ ∃ k, lo ≤ k ∧ k < hi ∧ j = idx size row k) →
      forLoop lo hi (fun col q => store size q row col v) p j = p j) :=
  forLoop_const (fun col q => store size q row col v) (fun k j => j = idx size row k) v
    (fun k q j h => by subst h; exact store_same size q row k v)
    (fun k q j h => store_other size q row k v j h) lo hi p

/-- A loop over `col` storing the constant `v` along row `row` of the mask. -/
theorem row_storeMask_loop (size row lo hi v : Nat) (t : Mask) :
    (∀ j, (∃ k, lo ≤ k ∧ k < hi ∧ j = idx size row k) →
      forLoop lo hi (fun col u => storeMask size u row col v) t j = v) ∧
    (∀ j, (¬ ∃ k, lo ≤ k ∧ k < hi ∧ j = idx size row k) →
      forLoop lo hi (fun col u => storeMask size u row col v) t j = t j) :=
  forLoop_const (fun col u => storeMask size u row col v) (fun k j => j = idx size row k) v
    (fun k u j h => by subst h; exact storeMask_same size u row k v)
    (fun k u j h => storeMask_other size u row k v j h) lo hi t

/-- A nested row/column loop storing the constant `v` on a rectangle. -/
theorem rect_store_loop {α : Type}
    (size rlo rhi clo chi : Nat) (v : α) (p : (Nat → α)) :
    (∀ j, (∃ r, rlo ≤ r ∧ r < rhi ∧ ∃ k, clo ≤ k ∧ k < chi ∧ j = idx size r k) →
      forLoop rlo rhi
        (fun row q => forLoop clo chi (fun col q2 => store size q2 row col v) q) p j = v) ∧
    (∀ j, (¬ ∃ r, rlo ≤ r ∧ r < rhi ∧ ∃ k, clo ≤ k ∧ k < chi ∧ j = idx size r k) →
      forLoop rlo rhi
        (fun row q => forLoop clo chi (fun col q2 => store size q2 row col v) q) p j = p j) :=
  forLoop_const
    (fun row q => forLoop clo chi (fun col q2 => store size q2 row col v) q)
    (fun r j => ∃ k, clo ≤ k ∧ k < chi ∧ j = idx size r k) v
    (fun r q j h => (row_store_loop size r clo chi v q).1 j h)
    (fun r q j h => (row_store_loop size r clo chi v q).2 j h) rlo rhi p

/-- A nested row/column loop storing the constant `v` on a rectangle of the mask. -/
theorem rect_storeMask_loop (size rlo rhi clo chi v : Nat) (t : Mask) :
    (∀ j, (∃ r, rlo ≤ r ∧ r < rhi ∧ ∃ k, clo ≤ k ∧ k < chi ∧ j = idx size r k) →
      forLoop rlo rhi
        (fun row u => forLoop clo chi (fun col u2 => storeMask size u2 row col v) u) t j = v) ∧
    (∀ j, (¬ ∃ r, rlo ≤ r ∧ r < rhi ∧ ∃ k, clo ≤ k ∧ k < chi ∧ j = idx size r k) →
      forLoop rlo rhi
        (fun row u => forLoop clo chi (fun col u2 => storeMask size u2 row col v) u) t j
        = t j) :=
  forLoop_const
    (fun row u => forLoop clo chi (fun col u2 => storeMask size u2 row col v) u)
    (fun r j => ∃ k, clo ≤ k ∧ k < chi ∧ j = idx size r k) v
    (fun r u j h => (row_storeMask_loop size r clo chi v u).1 j h)
    (fun r u j h => (row_storeMask_loop size r clo chi v u).2 j h) rlo rhi t

/-! ## The static cells and the mask -/

/-- The static cells lie inside the grid. -/
theorem isStaticCell_inside {size r c : Nat} (h : isStaticCell size r c) :
    r < size ∧ c < size := by
  unfold isStaticCell at h
  omega

/-- Value of `set_static_cells` at a cell of the grid. -/
theorem set_static_cells_cell {α : Type} [OfNat α 100]
    (size : Nat) (p : (Nat → α)) (r c : Nat) (hc : c < size) :
    cell size (set_static_cells size p) r c
      = if isStaticCell size r c then 100 else cell size p r c := by
  unfold set_static_cells cell
  by_cases hs : size > 500
  · simp only [hs, if_true]
    have hloop := row_store_loop size 400 0 331 100 p
    by_cases h2 : r = 200 ∧ c = 500
    · obtain ⟨rfl, rfl⟩ := h2
      rw [store_same, if_pos]
      exact ⟨hs, Or.inr ⟨rfl, rfl⟩⟩
    · have hne : idx size r c ≠ idx size 200 500 := by
        intro h
        exact h2 (idx_inj hc (by omega) h)
      rw [store_other _ _ _ _ _ _ hne]
      by_cases h4 : r = 400 ∧ c < 331
      · obtain ⟨rfl, hc4⟩ := h4
        rw [hloop.1 _ ⟨c, Nat.zero_le c, hc4, rfl⟩, if_pos]
        exact ⟨hs, Or.inl ⟨rfl, hc4⟩⟩
      · have hno : ¬ ∃ k, 0 ≤ k ∧ k < 331 ∧ idx size r c = idx size 400 k := by
          rintro ⟨k, _, hk, he⟩
          obtain ⟨h5, h6⟩ := idx_inj hc (by omega) he
          exact h4 ⟨h5, by omega⟩
        rw [hloop.2 _ hno, if_neg]
        rintro ⟨_, h7 | h7⟩
        · exact h4 h7
        · exact h2 h7
  · simp only [hs, if_false]
    rw [if_neg]
    rintro ⟨h, _⟩
    exact hs h

/-- Value of the mask built by `initialize_test_cells` at a cell of the grid. -/
theorem initialize_test_cells_cell (size : Nat) (t : Mask) (r c : Nat)
    (hr : r < size) (hc : c < size) :
    cell size (initialize_test_cells size t) r c
      = if isStaticCell size r c then 1 else 0 := by
  unfold initialize_test_cells cell
  have hclear := (rect_storeMask_loop size 0 size 0 size 0 t).1 (idx size r c)
    ⟨r, Nat.zero_le r, hr, c, Nat.zero_le c, hc, rfl⟩
  by_cases hs : size > 500
  · simp only [hs, if_true]
    have hloop := row_storeMask_loop size 400 0 331 1
      (forLoop 0 size (fun row t => forLoop 0 size (fun col u => storeMask size u row col 0) t) t)
    by_cases h2 : r = 200 ∧ c = 500
    · obtain ⟨rfl, rfl⟩ := h2
      rw [storeMask_same, if_pos]
      exact ⟨hs, Or.inr ⟨rfl, rfl⟩⟩
    · have hne : idx size r c ≠ idx size 200 500 := by
        intro h
        exact h2 (idx_inj hc (by omega) h)
      rw [storeMask_other _ _ _ _ _ _ hne]
      by_cases h4 : r = 400 ∧ c < 331
      · obtain ⟨rfl, hc4⟩ := h4
        rw [hloop.1 _ ⟨c, Nat.zero_le c, hc4, rfl⟩, if_pos]
        exact ⟨hs, Or.inl ⟨rfl, hc4⟩⟩
      · have hno : ¬ ∃ k, 0 ≤ k ∧ k < 331 ∧ idx size r c = idx size 400 k := by
          rintro ⟨k, _, hk, he⟩
          obtain ⟨h5, h6⟩ := idx_inj hc (by omega) he
          exact h4 ⟨h5, by omega⟩
        rw [hloop.2 _ hno, hclear, if_neg]
        rintro ⟨_, h7 | h7⟩
        · exact h4 h7
        · exact h2 h7
  · simp only [hs, if_false]
    rw [hclear, if_neg]
    rintro ⟨h, _⟩
    exact hs h

/-! ## The initial grid -/

/-- The row loop of stores in cell coordinates. -/
theorem row_store_cell {α : Type}
    (size row lo hi : Nat) (v : α) (p : (Nat → α)) (r c : Nat)
    (hc : c < size) (hhi : hi ≤ size) :
    cell size (forLoop lo hi (fun col q => store size q row col v) p) r c
      = if r = row ∧ lo ≤ c ∧ c < hi then v else cell size p r c := by
  unfold cell
  have hloop := row_store_loop size row lo hi v p
  by_cases h : r = row ∧ lo ≤ c ∧ c < hi
  · obtain ⟨rfl, h1, h2⟩ := h
    rw [hloop.1 _ ⟨c, h1, h2, rfl⟩, if_pos ⟨rfl, h1, h2⟩]
  · rw [if_neg h]
    apply hloop.2
    rintro ⟨k, h1, h2, he⟩
    obtain ⟨h5, h6⟩ := idx_inj hc (by omega) he
    exact h ⟨h5, by omega, by omega⟩

/-- The nested loop of stores in cell coordinates. -/
theorem rect_store_cell {α : Type}
    (size rlo rhi clo chi : Nat) (v : α) (p : (Nat → α)) (r c : Nat)
    (hc : c < size) (hhi : chi ≤ size) :
    cell size (forLoop rlo rhi
        (fun row q => forLoop clo chi (fun col q2 => store size q2 row col v) q) p) r c
      = if (rlo ≤ r ∧ r < rhi) ∧ clo ≤ c ∧ c < chi then v else cell size p r c := by
  unfold cell
  have hloop := rect_store_loop size rlo rhi clo chi v p
  by_cases h : (rlo ≤ r ∧ r < rhi) ∧ clo ≤ c ∧ c < chi
  · obtain ⟨⟨h1, h2⟩, h3, h4⟩ := h
    rw [hloop.1 _ ⟨r, h1, h2, c, h3, h4, rfl⟩, if_pos ⟨⟨h1, h2⟩, h3, h4⟩]
  · rw [if_neg h]
    apply hloop.2
    rintro ⟨r2, h1, h2, k, h3, h4, he⟩
    obtain ⟨h5, h6⟩ := idx_inj hc (by omega) he
    exact h ⟨⟨by omega, by omega⟩, by omega, by omega⟩

/-- The first loop of `initialize` (left and right sides) in cell coordinates. -/
theorem sides_loop_cell {α : Type} [OfNat α 0]
    (size : Nat) (p : (Nat → α)) (r c : Nat) (hr : r < size) (hc : c < size) :
    cell size (forLoop 0 size
        (fun row q => store size (store size q row 0 0) row (size - 1) 0) p) r c
      = if c = 0 ∨ c = size - 1 then 0 else cell size p r c := by
  unfold cell
  have hloop := forLoop_const
    (fun row q => store size (store size q row 0 0) row (size - 1) 0)
    (fun k j => j = idx size k 0 ∨ j = idx size k (size - 1)) (0 : α)
    (fun k q j h => by
      show store size (store size q k 0 0) k (size - 1) 0 j = 0
      by_cases h2 : j = idx size k (size - 1)
      · subst h2
        exact store_same size _ k (size - 1) 0
      · rw [store_other _ _ _ _ _ _ h2]
        rcases h with h | h
        · subst h
          exact store_same size _ k 0 0
        · exact absurd h h2)
    (fun k q j h => by
      show store size (store size q k 0 0) k (size - 1) 0 j = q j
      rw [store_other _ _ _ _ _ _ (fun h2 => h (Or.inr h2)),
        store_other _ _ _ _ _ _ (fun h2 => h (Or.inl h2))])
    0 size p
  by_cases h : c = 0 ∨ c = size - 1
  · rw [if_pos h]
    apply hloop.1
    rcases h with h | h
    · exact ⟨r, Nat.zero_le r, hr, Or.inl (by rw [h])⟩
    · exact ⟨r, Nat.zero_le r, hr, Or.inr (by rw [h])⟩
  · rw [if_neg h]
    apply hloop.2
    rintro ⟨k, _, hk, he | he⟩
    · exact h (Or.inl (idx_inj hc (by omega) he).2)
    · exact h (Or.inr (idx_inj hc (by omega) he).2)

/-- Value of `initialize` at every cell of the grid. -/
theorem initialize_plate_cell {α : Type} [OfNat α 0] [OfNat α 50] [OfNat α 100]
    (size : Nat) (p : (Nat → α)) (r c : Nat)
    (hr : r < size) (hc : c < size) :
    cell size (initialize_plate size p) r c
      = if isStaticCell size r c then 100
        else if isInterior size r c then 50
        else if r = size - 1 then 100
        else 0 := by
  unfold initialize_plate
  simp only []
  rw [set_static_cells_cell size _ r c hc,
    rect_store_cell size 1 (size - 1) 1 (size - 1) 50 _ r c hc (by omega),
    row_store_cell size (size - 1) 0 size 100 _ r c hc (le_refl size),
    row_store_cell size 0 0 size 0 _ r c hc (le_refl size),
    sides_loop_cell size p r c hr hc]
  unfold isInterior
  by_cases h1 : isStaticCell size r c
  · simp only [h1, if_true]
  · simp only [h1, if_false]
    by_cases h2 : 1 ≤ r ∧ r ≤ size - 2 ∧ 1 ≤ c ∧ c ≤ size - 2
    · rw [if_pos h2, if_pos]
      omega
    · rw [if_neg h2]
      by_cases h3 : r = size - 1
      · rw [if_neg (by omega), if_pos ⟨h3, by omega, hc⟩, if_pos h3]
      · rw [if_neg (by omega), if_neg (by omega), if_neg h3]
        by_cases h4 : r = 0
        · rw [if_pos ⟨h4, by omega, hc⟩]
        · rw [if_neg (by omega), if_pos (by omega)]

/-! ## The stencil pass -/

/-- Offsets of the four neighbours of `(r, c)` relative to the cell's own offset. -/
theorem idx_neighbours (size r c : Nat) (hr : 1 ≤ r) (hc : 1 ≤ c) :
    (r - 1) * size + c = idx size r c - size ∧ (r + 1) * size + c = idx size r c + size ∧
    r * size + (c - 1) = idx size r c - 1 ∧ r * size + (c + 1) = idx size r c + 1 := by
  unfold idx
  obtain ⟨r2, rfl⟩ : ∃ r2, r = r2 + 1 := ⟨r - 1, by omega⟩
  have h1 : (r2 + 1 - 1) * size = r2 * size := by simp
  have h2 : (r2 + 1) * size = r2 * size + size := by ring
  have h3 : (r2 + 1 + 1) * size = r2 * size + size + size := by ring
  rw [h1, h3, h2]
  omega

/-- The inner (column) loop of `compute` on row `row`. -/
theorem compute_row_flat {α : Type} [Add α] [Mul α] [Div α] [OfNat α 4] [OfNat α 8]
    (size row : Nat) (hrow : 1 ≤ row) (current : (Nat → α))
    (body : Nat → BuffersOf α → BuffersOf α)
    (hbody : body = fun col b =>
      let v := (b.current ((row - 1) * size + col) + b.current ((row + 1) * size + col)
                + b.current (row * size + (col - 1)) + b.current (row * size + (col + 1))
                + 4 * b.current (row * size + col)) / 8
      { b with next := store size b.next row col v })
    (b : BuffersOf α) (hb : b.current = current) :
    (forLoop 1 (size - 1) body b).current = current ∧
    (∀ j, (∃ c, 1 ≤ c ∧ c < size - 1 ∧ j = idx size row c) →
      (forLoop 1 (size - 1) body b).next j
        = (current (j - size) + current (j + size) + current (j - 1) + current (j + 1)
            + 4 * current j) / 8) ∧
    (∀ j, (¬ ∃ c, 1 ≤ c ∧ c < size - 1 ∧ j = idx size row c) →
      (forLoop 1 (size - 1) body b).next j = b.next j) :=
  forLoop_writes (fun b => b.next) (fun b => b.current = current) body
    (fun col j => j = idx size row col)
    (fun j => (current (j - size) + current (j + size) + current (j - 1) + current (j + 1)
              + 4 * current j) / 8) 1 (size - 1)
    (by
      intro k s _ hs
      subst hbody
      exact hs)
    (by
      rintro k s j h2 hs rfl
      obtain ⟨e1, e2, e3, e4⟩ := idx_neighbours size row k hrow h2
      subst hbody
      simp only []
      rw [store_same, e1, e2, e3, e4, hs]
      rfl)
    (by
      intro k s j _ hs hw
      subst hbody
      simp only []
      rw [store_other _ _ _ _ _ _ hw])
    b hb

/-- What `compute` does to the two buffers, by flat offset: `current` is left as
it was, the offsets of interior cells of `next` receive the stencil value of the
old `current`, every other offset of `next` keeps its value. -/
theorem compute_flat {α : Type} [Add α] [Mul α] [Div α] [OfNat α 4] [OfNat α 8]
    (size : Nat) (current next : (Nat → α)) :
    (compute size current next).current = current ∧
    (∀ j, (∃ r, 1 ≤ r ∧ r < size - 1 ∧ ∃ c, 1 ≤ c ∧ c < size - 1 ∧ j = idx size r c) →
      (compute size current next).next j
        = (current (j - size) + current (j + size) + current (j - 1) + current (j + 1)
            + 4 * current j) / 8) ∧
    (∀ j, (¬ ∃ r, 1 ≤ r ∧ r < size - 1 ∧ ∃ c, 1 ≤ c ∧ c < size - 1 ∧ j = idx size r c) →
      (compute size current next).next j = next j) :=
  forLoop_writes (fun b => b.next) (fun b => b.current = current) _
    (fun r j => ∃ c, 1 ≤ c ∧ c < size - 1 ∧ j = idx size r c)
    (fun j => (current (j - size) + current (j + size) + current (j - 1) + current (j + 1)
              + 4 * current j) / 8) 1 (size - 1)
    (fun r s hr hs => (compute_row_flat size r hr current _ rfl s hs).1)
    (fun r s j hr hs hw => (compute_row_flat size r hr current _ rfl s hs).2.1 j hw)
    (fun r s j hr hs hw => (compute_row_flat size r hr current _ rfl s hs).2.2 j hw)
    { current := current, next := next } rfl

/-- Value of the `next` buffer after `compute` at every cell of the grid. -/
theorem compute_cell {α : Type} [Add α] [Mul α] [Div α] [OfNat α 4] [OfNat α 8]
    (size : Nat) (current next : (Nat → α)) (r c : Nat) (hc : c < size) :
    cell size (compute size current next).next r c
      = if isInterior size r c then
          (cell size current (r - 1) c + cell size current (r + 1) c
            + cell size current r (c - 1) + cell size current r (c + 1)
            + 4 * cell size current r c) / 8
        else cell size next r c := by
  obtain ⟨_, h2, h3⟩ := compute_flat size current next
  unfold isInterior
  by_cases h : 1 ≤ r ∧ r ≤ size - 2 ∧ 1 ≤ c ∧ c ≤ size - 2
  · rw [if_pos h]
    obtain ⟨e1, e2, e3, e4⟩ := idx_neighbours size r c h.1 h.2.2.1
    unfold cell
    rw [h2 _ ⟨r, h.1, by omega, c, h.2.2.1, by omega, rfl⟩, ← e1, ← e2, ← e3, ← e4]
    rfl
  · rw [if_neg h]
    unfold cell
    apply h3
    rintro ⟨r2, hr1, hr2, c2, hc1, hc2, he⟩
    obtain ⟨h5, h6⟩ := idx_inj hc (by omega) he
    exact h ⟨by omega, by omega, by omega, by omega⟩

/-! ## The convergence scan -/

/-- In exact arithmetic `fabsf` is the absolute value. -/
theorem fabs_exact (x : Temp) : FAbs.fabs x = |x| := rfl

/-- The test of the convergence scan at `(r, c)` in cell coordinates. -/
theorem exceeds_iff (size : Nat) (error : Temp) (g : Plate) (test : Mask) (r c : Nat)
    (hc : 1 ≤ c) :
    exceeds size error g test r c = true ↔
      (cell size test r c = 0 ∧
        |cell size g r c - (cell size g (r - 1) c + cell size g (r + 1) c
            + cell size g r (c + 1) + cell size g r (c - 1)) / 4| ≥ error) := by
  have e : r * size + c - 1 = r * size + (c - 1) := by omega
  unfold exceeds cell idx
  simp only [Bool.and_eq_true, decide_eq_true_eq, e, Nat.add_assoc]
  exact And.comm

/-- A flag loop: each trip either keeps the flag or raises it when `Q k` holds. -/
theorem loopFrom_or (body : Nat → Bool → Bool) (Q : Nat → Prop) (lo : Nat)
    (hbody : ∀ k kg, lo ≤ k → (body k kg = true ↔ (kg = true ∨ Q k))) :
    ∀ (n i : Nat) (kg : Bool), lo ≤ i →
      (loopFrom body n i kg = true ↔ (kg = true ∨ ∃ k, i ≤ k ∧ k < i + n ∧ Q k)) := by
  intro n
  induction n with
  | zero =>
    intro i kg _
    constructor
    · intro h
      exact Or.inl h
    · rintro (h | ⟨k, h1, h2, _⟩)
      · exact h
      · omega
  | succ n ih =>
    intro i kg hi
    show loopFrom body n (i + 1) (body i kg) = true ↔ _
    rw [ih (i + 1) (body i kg) (by omega), hbody i kg hi]
    constructor
    · rintro ((h | h) | ⟨k, h1, h2, h3⟩)
      · exact Or.inl h
      · exact Or.inr ⟨i, le_refl i, by omega, h⟩
      · exact Or.inr ⟨k, by omega, by omega, h3⟩
    · rintro (h | ⟨k, h1, h2, h3⟩)
      · exact Or.inl (Or.inl h)
      · by_cases hk : k = i
        · subst hk
          exact Or.inl (Or.inr h3)
        · exact Or.inr ⟨k, by omega, by omega, h3⟩

/-- The rule `loopFrom_or` for `forLoop lo hi`. -/
theorem forLoop_or (body : Nat → Bool → Bool) (Q : Nat → Prop) (lo hi : Nat)
    (hbody : ∀ k kg, lo ≤ k → (body k kg = true ↔ (kg = true ∨ Q k))) (kg : Bool) :
    forLoop lo hi body kg = true ↔ (kg = true ∨ ∃ k, lo ≤ k ∧ k < hi ∧ Q k) := by
  unfold forLoop
  rw [loopFrom_or body Q lo hbody (hi - lo) lo kg (le_refl lo)]
  constructor
  · rintro (h | ⟨k, h1, h2, h3⟩)
    · exact Or.inl h
    · exact Or.inr ⟨k, h1, by omega, h3⟩
  · rintro (h | ⟨k, h1, h2, h3⟩)
    · exact Or.inl h
    · exact Or.inr ⟨k, h1, by omega, h3⟩

/-- The column loop with its `break`: the flag is raised exactly when it was
raised before or one of the remaining columns exceeds. -/
theorem scan_cols_iff {α : Type} [Add α] [Sub α] [Div α] [LE α]
    [DecidableRel (fun a b : α => a ≤ b)] [FAbs α] [OfNat α 4]
    (size : Nat) (error : α) (g : (Nat → α)) (test : Mask) (row : Nat) :
    ∀ (n col : Nat) (kg : Bool),
      (scan_cols size error g test row n col kg = true ↔
        (kg = true ∨ ∃ c, col ≤ c ∧ c < col + n ∧ exceeds size error g test row c = true)) := by
  intro n
  induction n with
  | zero =>
    intro col kg
    constructor
    · intro h
      exact Or.inl h
    · rintro (h | ⟨c, h1, h2, _⟩)
      · exact h
      · omega
  | succ n ih =>
    intro col kg
    unfold scan_cols
    by_cases hx : exceeds size error g test row col = true
    · rw [if_pos hx]
      constructor
      · intro _
        exact Or.inr ⟨col, le_refl col, by omega, hx⟩
      · intro _
        rfl
    · rw [if_neg hx, ih (col + 1) kg]
      constructor
      · rintro (h | ⟨c, h1, h2, h3⟩)
        · exact Or.inl h
        · exact Or.inr ⟨c, by omega, by omega, h3⟩
      · rintro (h | ⟨c, h1, h2, h3⟩)
        · exact Or.inl h
        · by_cases hk : c = col
          · subst hk
            exact absurd h3 hx
          · exact Or.inr ⟨c, by omega, by omega, h3⟩

/-- The convergence scan raises the flag exactly when it was raised on entry or
some cell of rows and columns `1 .. size-2` exceeds. -/
theorem convergence_scan_flag {α : Type} [Add α] [Sub α] [Div α] [LE α]
    [DecidableRel (fun a b : α => a ≤ b)] [FAbs α] [OfNat α 4]
    (size : Nat) (error : α) (g : (Nat → α)) (test : Mask)
    (kg : Bool) :
    convergence_scan size error g test kg = true ↔
      (kg = true ∨ ∃ r, 1 ≤ r ∧ r < size - 1 ∧
        ∃ c, 1 ≤ c ∧ c < size - 1 ∧ exceeds size error g test r c = true) := by
  unfold convergence_scan
  apply forLoop_or _ (fun r => ∃ c, 1 ≤ c ∧ c < size - 1 ∧ exceeds size error g test r c = true)
  intro r kg2 _
  rw [scan_cols_iff]
  constructor
  · rintro (h | ⟨c, h1, h2, h3⟩)
    · exact Or.inl h
    · exact Or.inr ⟨c, h1, by omega, h3⟩
  · rintro (h | ⟨c, h1, h2, h3⟩)
    · exact Or.inl h
    · exact Or.inr ⟨c, h1, by omega, h3⟩

/-- The scan without `break` raises the flag under the same condition. -/
theorem convergence_scan_full_flag {α : Type} [Add α] [Sub α] [Div α] [LE α]
    [DecidableRel (fun a b : α => a ≤ b)] [FAbs α] [OfNat α 4]
    (size : Nat) (error : α) (g : (Nat → α)) (test : Mask)
    (kg : Bool) :
    convergence_scan_full size error g test kg = true ↔
      (kg = true ∨ ∃ r, 1 ≤ r ∧ r < size - 1 ∧
        ∃ c, 1 ≤ c ∧ c < size - 1 ∧ exceeds size error g test r c = true) := by
  unfold convergence_scan_full
  apply forLoop_or _ (fun r => ∃ c, 1 ≤ c ∧ c < size - 1 ∧ exceeds size error g test r c = true)
  intro r kg2 _
  apply forLoop_or _ (fun c => exceeds size error g test r c = true)
  intro c kg3 _
  by_cases hx : exceeds size error g test r c = true
  · simp [hx]
  · simp [hx]

/-- The flag after the scan in cell coordinates. -/
theorem convergence_scan_cells (size : Nat) (error : Temp) (g : Plate) (test : Mask) :
    convergence_scan size error g test false = true ↔
      ∃ r c, isInterior size r c ∧ cell size test r c = 0 ∧
        |cell size g r c - (cell size g (r - 1) c + cell size g (r + 1) c
            + cell size g r (c + 1) + cell size g r (c - 1)) / 4| ≥ error := by
  rw [convergence_scan_flag]
  unfold isInterior
  constructor
  · rintro (h | ⟨r, h1, h2, c, h3, h4, h5⟩)
    · exact absurd h (by decide)
    · rw [exceeds_iff size error g test r c h3] at h5
      exact ⟨r, c, ⟨h1, by omega, h3, by omega⟩, h5.1, h5.2⟩
  · rintro ⟨r, c, ⟨h1, h2, h3, h4⟩, h5, h6⟩
    have h7 : 1 ≤ size - 2 := le_trans h1 h2
    exact Or.inr ⟨r, h1, by omega, c, h3, by omega,
      (exceeds_iff size error g test r c h3).2 ⟨h5, h6⟩⟩

/-! ## The iteration loop -/

/-- Invariant rule for the loop of `hotplate`: a property kept by every trip whose
loop test passed holds when the loop is left. -/
theorem hotplate_loop_inv {α : Type} [Add α] [Sub α] [Mul α] [Div α] [LE α]
    [DecidableRel (fun a b : α => a ≤ b)] [FAbs α]
    [OfNat α 4] [OfNat α 8] [OfNat α 100]
    (size : Nat) (error : α) (test : Mask)
    (P : StateOf α → Prop)
    (hstep : ∀ s, P s → s.it < MAX_ITERATIONS → s.keep_going = true →
      P (iteration size error test s)) :
    ∀ (fuel : Nat) (s : StateOf α), P s → P (hotplate_loop size error test fuel s) := by
  intro fuel
  induction fuel with
  | zero =>
    intro s hs
    exact hs
  | succ fuel ih =>
    intro s hs
    unfold hotplate_loop
    by_cases hc : (decide (s.it < MAX_ITERATIONS) && s.keep_going) = true
    · rw [if_pos hc]
      simp only [Bool.and_eq_true, decide_eq_true_eq] at hc
      exact ih _ (hstep s hs hc.1 hc.2)
    · rw [if_neg hc]
      exact hs

/-- With fuel for the trips that the cap still allows, the loop is left with its
test false. -/
theorem hotplate_loop_exit {α : Type} [Add α] [Sub α] [Mul α] [Div α] [LE α]
    [DecidableRel (fun a b : α => a ≤ b)] [FAbs α]
    [OfNat α 4] [OfNat α 8] [OfNat α 100]
    (size : Nat) (error : α) (test : Mask) :
    ∀ (fuel : Nat) (s : StateOf α), MAX_ITERATIONS ≤ s.it + fuel →
      ¬ ((hotplate_loop size error test fuel s).it < MAX_ITERATIONS ∧
          (hotplate_loop size error test fuel s).keep_going = true) := by
  intro fuel
  induction fuel with
  | zero =>
    intro s hs
    show ¬ (s.it < MAX_ITERATIONS ∧ s.keep_going = true)
    intro h
    omega
  | succ fuel ih =>
    intro s hs
    unfold hotplate_loop
    by_cases hc : (decide (s.it < MAX_ITERATIONS) && s.keep_going) = true
    · rw [if_pos hc]
      apply ih
      show MAX_ITERATIONS ≤ s.it + 1 + fuel
      omega
    · rw [if_neg hc]
      simpa only [Bool.and_eq_true, decide_eq_true_eq] using hc

/-- Once the loop test is false, further fuel changes nothing. -/
theorem hotplate_loop_done {α : Type} [Add α] [Sub α] [Mul α] [Div α] [LE α]
    [DecidableRel (fun a b : α => a ≤ b)] [FAbs α]
    [OfNat α 4] [OfNat α 8] [OfNat α 100]
    (size : Nat) (error : α) (test : Mask) (fuel : Nat)
    (s : StateOf α) (h : ¬ (s.it < MAX_ITERATIONS ∧ s.keep_going = true)) :
    hotplate_loop size error test fuel s = s := by
  cases fuel with
  | zero => rfl
  | succ fuel =>
    unfold hotplate_loop
    rw [if_neg]
    simpa only [Bool.and_eq_true, decide_eq_true_eq] using h

/-- Fuel adds up: running `a + b` trips is running `a` and then `b`. -/
theorem hotplate_loop_add {α : Type} [Add α] [Sub α] [Mul α] [Div α] [LE α]
    [DecidableRel (fun a b : α => a ≤ b)] [FAbs α]
    [OfNat α 4] [OfNat α 8] [OfNat α 100]
    (size : Nat) (error : α) (test : Mask) (b : Nat) :
    ∀ (a : Nat) (s : StateOf α),
      hotplate_loop size error test (a + b) s
        = hotplate_loop size error test b (hotplate_loop size error test a s) := by
  intro a
  induction a with
  | zero =>
    intro s
    rw [Nat.zero_add]
    rfl
  | succ a ih =>
    intro s
    rw [Nat.add_right_comm]
    show hotplate_loop size error test (a + b + 1) s = _
    by_cases hc : (decide (s.it < MAX_ITERATIONS) && s.keep_going) = true
    · have e1 : hotplate_loop size error test (a + b + 1) s
          = hotplate_loop size error test (a + b) (iteration size error test s) := by
        rw [hotplate_loop, if_pos hc]
      have e2 : hotplate_loop size error test (a + 1) s
          = hotplate_loop size error test a (iteration size error test s) := by
        rw [hotplate_loop, if_pos hc]
      rw [e1, e2, ih]
    · have h : ¬ (s.it < MAX_ITERATIONS ∧ s.keep_going = true) := by
        simpa only [Bool.and_eq_true, decide_eq_true_eq] using hc
      rw [hotplate_loop_done size error test (a + b + 1) s h,
        hotplate_loop_done size error test (a + 1) s h,
        hotplate_loop_done size error test b s h]

/-- The bookkeeping of the loop: the reported count is the trip counter, it stays
within the cap, and after the first trip the flag is the result of the scan of the
current buffer. -/
theorem hotplate_final_bookkeeping {α : Type} [Add α] [Sub α] [Mul α] [Div α] [LE α]
    [DecidableRel (fun a b : α => a ≤ b)] [FAbs α]
    [OfNat α 4] [OfNat α 8] [OfNat α 100] [OfNat α 0] [OfNat α 50]
    (size : Nat) (error : α) (mem_current mem_next : (Nat → α))
    (mem_test : Mask) :
    (hotplate_final size error mem_current mem_next mem_test).iterations
      = (hotplate_final size error mem_current mem_next mem_test).it ∧
    (hotplate_final size error mem_current mem_next mem_test).it ≤ MAX_ITERATIONS ∧
    ((hotplate_final size error mem_current mem_next mem_test).keep_going
      = if (hotplate_final size error mem_current mem_next mem_test).it = 0 then true
        else convergence_scan size error
          (hotplate_final size error mem_current mem_next mem_test).current_plate
          (initialize_test_cells size mem_test) false) := by
  unfold hotplate_final
  apply hotplate_loop_inv size error (initialize_test_cells size mem_test)
    (fun s => s.iterations = s.it ∧ s.it ≤ MAX_ITERATIONS ∧
      (s.keep_going = if s.it = 0 then true
        else convergence_scan size error s.current_plate
          (initialize_test_cells size mem_test) false))
  · rintro s ⟨h1, h2, h3⟩ hlt hkg
    refine ⟨?_, ?_, ?_⟩
    · show s.iterations + 1 = s.it + 1
      rw [h1]
    · show s.it + 1 ≤ MAX_ITERATIONS
      omega
    · show (iteration size error (initialize_test_cells size mem_test) s).keep_going
        = if s.it + 1 = 0 then true else _
      rw [if_neg (by omega)]
      rfl
  · refine ⟨rfl, ?_, rfl⟩
    show 0 ≤ MAX_ITERATIONS
    omega

/-! ## A run that converges at once -/

/-- On the 3 x 3 grid with tolerance 100 the scan after the first trip finds no
exceeding cell. -/
theorem small_run_flag :
    (iteration 3 (100 : Temp) (initialize_test_cells 3 (fun _ => 0))
      (hotplate_init 3 (fun _ => (0 : Temp)) (fun _ => 0))).keep_going = false := by
  simp [iteration, hotplate_init, convergence_scan, scan_cols, exceeds, forLoop, loopFrom,
    compute, swap, set_static_cells, initialize_plate, initialize_test_cells, store, storeMask,
    idx, Function.update_apply, fabs_exact]
  norm_num [abs_lt]

/-- On the 3 x 3 grid with tolerance 100 the loop is left after one trip. -/
theorem small_run :
    hotplate_final 3 (100 : Temp) (fun _ => 0) (fun _ => 0) (fun _ => 0)
      = iteration 3 (100 : Temp) (initialize_test_cells 3 (fun _ => 0))
          (hotplate_init 3 (fun _ => (0 : Temp)) (fun _ => 0)) := by
  have e : hotplate_final 3 (100 : Temp) (fun _ => 0) (fun _ => 0) (fun _ => 0)
      = hotplate_loop 3 (100 : Temp) (initialize_test_cells 3 (fun _ => 0)) 499
          (iteration 3 (100 : Temp) (initialize_test_cells 3 (fun _ => 0))
            (hotplate_init 3 (fun _ => (0 : Temp)) (fun _ => 0))) := rfl
  rw [e]
  apply hotplate_loop_done
  rw [small_run_flag]
  simp

/-- The 3 x 3 run with tolerance 100 reports one iteration. -/
theorem small_run_count :
    (hotplate 3 (100 : Temp) (fun _ => 0) (fun _ => 0) (fun _ => 0)).1 = 1 := by
  show (hotplate_final 3 (100 : Temp) (fun _ => 0) (fun _ => 0) (fun _ => 0)).iterations = 1
  rw [small_run]
  rfl

/-- Offsets outside the static set are untouched by `set_static_cells`, the
static offsets receive 100; the static set does not depend on the grid. -/
theorem set_static_cells_flat {α : Type} [OfNat α 100]
    (size : Nat) :
    ∃ S : Nat → Prop, ∀ (p : (Nat → α)) (j : Nat),
      (S j → set_static_cells size p j = 100) ∧ (¬ S j → set_static_cells size p j = p j) := by
  by_cases hs : size > 500
  · refine ⟨fun j => (∃ k, 0 ≤ k ∧ k < 331 ∧ j = idx size 400 k) ∨ j = idx size 200 500, ?_⟩
    intro p j
    have hloop := row_store_loop size 400 0 331 100 p
    unfold set_static_cells
    simp only [hs, if_true]
    constructor
    · intro hS
      by_cases h2 : j = idx size 200 500
      · subst h2
        exact store_same size _ 200 500 100
      · rw [store_other _ _ _ _ _ _ h2]
        rcases hS with h | h
        · exact hloop.1 j h
        · exact absurd h h2
    · intro hS
      rw [store_other _ _ _ _ _ _ (fun h => hS (Or.inr h))]
      exact hloop.2 j (fun h => hS (Or.inl h))
  · refine ⟨fun _ => False, ?_⟩
    intro p j
    unfold set_static_cells
    simp only [hs, if_false]
    exact ⟨fun h => False.elim h, fun _ => trivial⟩

/-! ## The claims -/

/-- C1: for `size >= 3` and every interior cell `(r, c)`, after
`compute(size, current, next)` the value `next[r][c]` is
`(current[r-1][c] + current[r+1][c] + current[r][c-1] + current[r][c+1]
+ 4*current[r][c]) / 8`, all five operands being values of `current` as it was
before the pass. -/
theorem compute_interior_value (size : Nat) (current next : Plate) (r c : Nat)
    (hs : 3 ≤ size) (hr1 : 1 ≤ r) (hr2 : r ≤ size - 2) (hc1 : 1 ≤ c) (hc2 : c ≤ size - 2) :
    cell size (compute size current next).next r c
      = (cell size current (r - 1) c + cell size current (r + 1) c
          + cell size current r (c - 1) + cell size current r (c + 1)
          + 4 * cell size current r c) / 8 := by
  rw [compute_cell size current next r c (by omega), if_pos ⟨hr1, hr2, hc1, hc2⟩]

/-- Witness for C1: a 3 x 3 grid holding its own offsets; the centre becomes
`(1 + 7 + 3 + 5 + 4*4) / 8 = 4`. -/
theorem compute_interior_value_witness :
    3 ≤ 3 ∧ cell 3 (compute 3 (fun j => (j : ℚ)) (fun _ => 0)).next 1 1 = 4 :=
  ⟨by decide,
    (compute_interior_value 3 (fun j => (j : ℚ)) (fun _ => 0) 1 1
      (by decide) (by decide) (by decide) (by decide) (by decide)).trans
      (by norm_num [cell, idx])⟩

/-- C2: for `size >= 3`, the convergence scan of `hotplate`, started with
`keep_going = 0`, leaves `keep_going` true exactly when some interior cell with a
false mask entry differs from the unweighted mean of its four neighbours by at
least `error`; and the scan with its `break` gives the same flag as the scan that
visits every cell of every row. -/
theorem convergence_scan_characterised (size : Nat) (error : Temp) (g : Plate) (mask : Mask)
    (_hs : 3 ≤ size) :
    (convergence_scan size error g mask false = true ↔
      ∃ r c, (1 ≤ r ∧ r ≤ size - 2 ∧ 1 ≤ c ∧ c ≤ size - 2) ∧ cell size mask r c = 0 ∧
        |cell size g r c - (cell size g (r - 1) c + cell size g (r + 1) c
            + cell size g r (c + 1) + cell size g r (c - 1)) / 4| ≥ error) ∧
    convergence_scan size error g mask false = convergence_scan_full size error g mask false := by
  refine ⟨convergence_scan_cells size error g mask, ?_⟩
  have h1 := convergence_scan_flag size error g mask false
  have h2 := convergence_scan_full_flag size error g mask false
  rw [Bool.eq_iff_iff, h1, h2]

/-- Witness for C2: the 3 x 3 grid holding its own offsets, tolerance `1/10`,
nothing masked. -/
theorem convergence_scan_characterised_witness :
    3 ≤ 3 ∧
    convergence_scan 3 (1 / 10 : Temp) (fun j => (j : ℚ)) (fun _ => 0) false
      = convergence_scan_full 3 (1 / 10 : Temp) (fun j => (j : ℚ)) (fun _ => 0) false :=
  ⟨by decide,
    (convergence_scan_characterised 3 (1 / 10 : Temp) (fun j => (j : ℚ)) (fun _ => 0)
      (by decide)).2⟩

/-- In exact arithmetic, when `hotplate` reports fewer than 500 iterations, every
interior cell of the final current grid whose mask entry is false differs from the
unweighted mean of its four neighbours by less than `error`. -/
theorem hotplate_converged_exact (size : Nat) (error : Temp)
    (mem_current mem_next : Plate) (mem_test : Mask) (_hs : 3 ≤ size)
    (hlt : (hotplate size error mem_current mem_next mem_test).1 < 500) :
    ∀ r c, 1 ≤ r → r ≤ size - 2 → 1 ≤ c → c ≤ size - 2 →
      cell size (initialize_test_cells size mem_test) r c = 0 →
      |cell size (hotplate_final size error mem_current mem_next mem_test).current_plate r c
        - (cell size (hotplate_final size error mem_current mem_next mem_test).current_plate
              (r - 1) c
            + cell size (hotplate_final size error mem_current mem_next mem_test).current_plate
              (r + 1) c
            + cell size (hotplate_final size error mem_current mem_next mem_test).current_plate
              r (c - 1)
            + cell size (hotplate_final size error mem_current mem_next mem_test).current_plate
              r (c + 1)) / 4| < error := by
  intro r c hr1 hr2 hc1 hc2 hmask
  obtain ⟨h1, h2, h3⟩ := hotplate_final_bookkeeping size error mem_current mem_next mem_test
  have hexit := hotplate_loop_exit size error (initialize_test_cells size mem_test)
    MAX_ITERATIONS (hotplate_init size mem_current mem_next) (Nat.le_add_left _ _)
  change ¬ ((hotplate_final size error mem_current mem_next mem_test).it < MAX_ITERATIONS ∧
    (hotplate_final size error mem_current mem_next mem_test).keep_going = true) at hexit
  have hlt2 : (hotplate_final size error mem_current mem_next mem_test).it
      < MAX_ITERATIONS := by
    have : (hotplate_final size error mem_current mem_next mem_test).iterations < 500 := hlt
    rw [h1] at this
    exact this
  have hkg : (hotplate_final size error mem_current mem_next mem_test).keep_going = false := by
    cases hk : (hotplate_final size error mem_current mem_next mem_test).keep_going
    · rfl
    · exact absurd ⟨hlt2, hk⟩ hexit
  have hit : (hotplate_final size error mem_current mem_next mem_test).it ≠ 0 := by
    intro h0
    rw [if_pos h0, hkg] at h3
    exact absurd h3 (by decide)
  rw [if_neg hit, hkg] at h3
  by_contra hge
  have hscan := (convergence_scan_cells size error
    (hotplate_final size error mem_current mem_next mem_test).current_plate
    (initialize_test_cells size mem_test)).2
    ⟨r, c, ⟨hr1, hr2, hc1, hc2⟩, hmask, by
      rw [add_right_comm (cell size _ (r - 1) c + cell size _ (r + 1) c)]
      exact not_lt.mp hge⟩
  rw [hscan] at h3
  exact absurd h3 (by decide)

/-- C4: for `size >= 3` and every tolerance the loop of `hotplate` is left (its
test is false in the final state, and more fuel than the cap changes nothing) and
the reported iteration count is at most `MAX_ITERATIONS = 500`. -/
theorem hotplate_halts_within_cap (size : Nat) (error : Temp)
    (mem_current mem_next : Plate) (mem_test : Mask) (_hs : 3 ≤ size) :
    ¬ ((hotplate_final size error mem_current mem_next mem_test).it < MAX_ITERATIONS ∧
        (hotplate_final size error mem_current mem_next mem_test).keep_going = true) ∧
    (∀ extra, hotplate_loop size error (initialize_test_cells size mem_test)
        (MAX_ITERATIONS + extra) (hotplate_init size mem_current mem_next)
      = hotplate_final size error mem_current mem_next mem_test) ∧
    (hotplate size error mem_current mem_next mem_test).1 ≤ 500 := by
  have hexit := hotplate_loop_exit size error (initialize_test_cells size mem_test)
    MAX_ITERATIONS (hotplate_init size mem_current mem_next) (Nat.le_add_left _ _)
  obtain ⟨h1, h2, _⟩ := hotplate_final_bookkeeping size error mem_current mem_next mem_test
  refine ⟨hexit, ?_, ?_⟩
  · intro extra
    rw [hotplate_loop_add]
    exact hotplate_loop_done size error _ extra _ hexit
  · show (hotplate_final size error mem_current mem_next mem_test).iterations ≤ 500
    rw [h1]
    exact h2

/-- Witness for C4: the scenario `size = 600`, `error = 0.1`. -/
theorem hotplate_halts_within_cap_witness :
    3 ≤ 600 ∧ (hotplate 600 (1 / 10 : Temp) (fun _ => 0) (fun _ => 0) (fun _ => 0)).1 ≤ 500 :=
  ⟨by decide,
    (hotplate_halts_within_cap 600 (1 / 10 : Temp) (fun _ => 0) (fun _ => 0) (fun _ => 0)
      (by decide)).2.2⟩

/-- C5: for `size >= 3`, right after `initialize(size, plate)` every cell of row 0
is 0, every cell of row `size-1` is 100, every interior cell is 50 unless it is a
static-source cell, and the static-source cells (for `size > 500`: row 400 columns
`0..330` and the cell `(200,500)`) are 100. -/
theorem initialize_values (size : Nat) (plate : Plate) (hs : 3 ≤ size) :
    (∀ c, c < size → cell size (initialize_plate size plate) 0 c = 0) ∧
    (∀ c, c < size → cell size (initialize_plate size plate) (size - 1) c = 100) ∧
    (∀ r c, 1 ≤ r → r ≤ size - 2 → 1 ≤ c → c ≤ size - 2 →
      cell size (initialize_plate size plate) r c
        = if 500 < size ∧ ((r = 400 ∧ c < 331) ∨ (r = 200 ∧ c = 500)) then 100 else 50) ∧
    (∀ r c, 500 < size → ((r = 400 ∧ c < 331) ∨ (r = 200 ∧ c = 500)) →
      cell size (initialize_plate size plate) r c = 100) := by
  refine ⟨?_, ?_, ?_, ?_⟩
  · intro c hc
    rw [initialize_plate_cell size plate 0 c (by omega) hc, if_neg, if_neg, if_neg]
    · omega
    · unfold isInterior
      omega
    · unfold isStaticCell
      omega
  · intro c hc
    rw [initialize_plate_cell size plate (size - 1) c (by omega) hc, if_neg, if_neg, if_pos rfl]
    · unfold isInterior
      omega
    · unfold isStaticCell
      omega
  · intro r c hr1 hr2 hc1 hc2
    rw [initialize_plate_cell size plate r c (by omega) (by omega)]
    by_cases h : isStaticCell size r c
    · rw [if_pos h, if_pos (show 500 < size ∧ ((r = 400 ∧ c < 331) ∨ (r = 200 ∧ c = 500))
        from h)]
    · rw [if_neg h, if_pos ⟨hr1, hr2, hc1, hc2⟩,
        if_neg (show ¬ (500 < size ∧ ((r = 400 ∧ c < 331) ∨ (r = 200 ∧ c = 500))) from h)]
  · intro r c h5 hst
    have h : isStaticCell size r c := ⟨h5, hst⟩
    obtain ⟨hr, hc⟩ := isStaticCell_inside h
    rw [initialize_plate_cell size plate r c hr hc, if_pos h]

/-- Witness for C5: the 5 x 5 grid; its centre is 50 after `initialize`. -/
theorem initialize_values_witness :
    3 ≤ 5 ∧ cell 5 (initialize_plate 5 (fun _ => (7 : Temp))) 2 2 = 50 :=
  ⟨by decide,
    ((initialize_values 5 (fun _ => 7) (by decide)).2.2.1 2 2
      (by decide) (by decide) (by decide) (by decide)).trans (by decide)⟩

/-- C6, as stated, fails at two inputs: on the 3 x 3 grid the bottom row is written
after the sides and holds 100 in column 0, and on the grid of side 501 the static
cell `(400,0)` holds 100 in column 0. -/
theorem initialize_side_columns_counterexample :
    ¬ (3 ≤ 3 → ∀ r, r ≤ 3 - 1 →
        cell 3 (initialize_plate 3 (fun _ => (0 : Temp))) r 0 = 0 ∧
        cell 3 (initialize_plate 3 (fun _ => (0 : Temp))) r (3 - 1) = 0) ∧
    ¬ (3 ≤ 501 → ∀ r, r ≤ 501 - 1 →
        cell 501 (initialize_plate 501 (fun _ => (0 : Temp))) r 0 = 0 ∧
        cell 501 (initialize_plate 501 (fun _ => (0 : Temp))) r (501 - 1) = 0) := by
  constructor
  · intro h
    have h2 := (h (by decide) 2 (by decide)).1
    rw [initialize_plate_cell 3 _ 2 0 (by decide) (by decide)] at h2
    revert h2
    decide
  · intro h
    have h2 := (h (by decide) 400 (by decide)).1
    rw [initialize_plate_cell 501 _ 400 0 (by decide) (by decide)] at h2
    revert h2
    decide

/-- C6, amended: for `size >= 3`, right after `initialize(size, plate)`, column 0
and column `size-1` are 0 in every row `r` with `0 <= r <= size-2`, except at
static-source cells (for `size > 500` the cell `(400,0)`, for `size = 501` also the
cell `(200,500)`), which are 100; in row `size-1` both columns hold 100. -/
theorem initialize_side_columns (size : Nat) (plate : Plate) (r : Nat) (hs : 3 ≤ size)
    (hr : r ≤ size - 1) :
    cell size (initialize_plate size plate) r 0
      = (if r = size - 1 ∨ (500 < size ∧ r = 400) then 100 else 0) ∧
    cell size (initialize_plate size plate) r (size - 1)
      = (if r = size - 1 ∨ (size = 501 ∧ r = 200) then 100 else 0) := by
  constructor
  · rw [initialize_plate_cell size plate r 0 (by omega) (by omega)]
    unfold isStaticCell isInterior
    by_cases h1 : r = size - 1
    · rw [if_neg (by omega), if_neg (by omega), if_pos h1, if_pos (Or.inl h1)]
    · by_cases h2 : 500 < size ∧ r = 400
      · rw [if_pos ⟨h2.1, Or.inl ⟨h2.2, by omega⟩⟩, if_pos (Or.inr h2)]
      · rw [if_neg (by omega), if_neg (by omega), if_neg h1, if_neg (by omega)]
  · rw [initialize_plate_cell size plate r (size - 1) (by omega) (by omega)]
    unfold isStaticCell isInterior
    by_cases h1 : r = size - 1
    · rw [if_neg (by omega), if_neg (by omega), if_pos h1, if_pos (Or.inl h1)]
    · by_cases h2 : size = 501 ∧ r = 200
      · rw [if_pos ⟨by omega, Or.inr ⟨h2.2, by omega⟩⟩, if_pos (Or.inr h2)]
      · rw [if_neg (by omega), if_neg (by omega), if_neg h1, if_neg (by omega)]

/-- Witness for amended C6: row 1 of the 3 x 3 grid has 0 in column 0. -/
theorem initialize_side_columns_witness :
    3 ≤ 3 ∧ cell 3 (initialize_plate 3 (fun _ => (7 : Temp))) 1 0 = 0 :=
  ⟨by decide,
    (initialize_side_columns 3 (fun _ => 7) 1 (by decide) (by decide)).1.trans (by decide)⟩

/-- C7: for `size >= 3`, after `compute(size, current, next)` every cell of `next`
in row 0, row `size-1`, column 0 or column `size-1` holds the value it held in
`next` before the pass, and `current` is unchanged everywhere. -/
theorem compute_frame (size : Nat) (current next : Plate) (hs : 3 ≤ size) :
    (∀ r c, r < size → c < size → (r = 0 ∨ r = size - 1 ∨ c = 0 ∨ c = size - 1) →
      cell size (compute size current next).next r c = cell size next r c) ∧
    (compute size current next).current = current := by
  refine ⟨?_, (compute_flat size current next).1⟩
  intro r c hr hc hb
  rw [compute_cell size current next r c hc, if_neg]
  unfold isInterior
  omega

/-- Witness for C7: the corner `(0,0)` of a 3 x 3 `next` buffer holding 9
everywhere keeps the value 9. -/
theorem compute_frame_witness :
    3 ≤ 3 ∧ cell 3 (compute 3 (fun j => (j : ℚ)) (fun _ => 9)).next 0 0 = 9 :=
  ⟨by decide,
    ((compute_frame 3 (fun j => (j : ℚ)) (fun _ => 9) (by decide)).1 0 0
      (by decide) (by decide) (Or.inl rfl)).trans rfl⟩

/-- C8: for `size > 500` the mask built by `initialize_test_cells` is true exactly
at columns `0..330` of row 400 and at `(200,500)` and false at every other cell;
`set_static_cells` writes 100 to those same cells and leaves every other cell
unchanged; these are 331 + 1 = 332 cells, all inside the `size x size` grid. -/
theorem static_cells_and_mask (size : Nat) (plate : Plate) (test : Mask) (hs : 500 < size) :
    (∀ r c, r < size → c < size →
      cell size (initialize_test_cells size test) r c
        = if (r = 400 ∧ c < 331) ∨ (r = 200 ∧ c = 500) then 1 else 0) ∧
    (∀ r c, r < size → c < size →
      cell size (set_static_cells size plate) r c
        = if (r = 400 ∧ c < 331) ∨ (r = 200 ∧ c = 500) then 100 else cell size plate r c) ∧
    (Finset.filter
        (fun q : Nat × Nat => cell size (initialize_test_cells size test) q.1 q.2 ≠ 0)
        (Finset.range size ×ˢ Finset.range size)).card = 332 ∧
    (∀ r c, ((r = 400 ∧ c < 331) ∨ (r = 200 ∧ c = 500)) →
      r < size ∧ c < size ∧ idx size r c < size * size) := by
  have hstat : ∀ r c, isStaticCell size r c ↔ ((r = 400 ∧ c < 331) ∨ (r = 200 ∧ c = 500)) :=
    fun r c => ⟨fun h => h.2, fun h => ⟨hs, h⟩⟩
  refine ⟨?_, ?_, ?_, ?_⟩
  · intro r c hr hc
    rw [initialize_test_cells_cell size test r c hr hc]
    by_cases h : isStaticCell size r c
    · rw [if_pos h, if_pos ((hstat r c).1 h)]
    · rw [if_neg h, if_neg (fun h2 => h ((hstat r c).2 h2))]
  · intro r c hr hc
    rw [set_static_cells_cell size plate r c hc]
    by_cases h : isStaticCell size r c
    · rw [if_pos h, if_pos ((hstat r c).1 h)]
    · rw [if_neg h, if_neg (fun h2 => h ((hstat r c).2 h2))]
  · have hset : Finset.filter
        (fun q : Nat × Nat => cell size (initialize_test_cells size test) q.1 q.2 ≠ 0)
        (Finset.range size ×ˢ Finset.range size)
        = insert (200, 500) ((Finset.range 331).image (fun c => ((400 : Nat), c))) := by
      ext ⟨r, c⟩
      simp only [Finset.mem_filter, Finset.mem_product, Finset.mem_range, Finset.mem_insert,
        Finset.mem_image, Prod.mk.injEq]
      constructor
      · rintro ⟨⟨hr, hc⟩, hne⟩
        rw [initialize_test_cells_cell size test r c hr hc] at hne
        by_cases h : isStaticCell size r c
        · rcases h.2 with h4 | h2
          · exact Or.inr ⟨c, h4.2, h4.1.symm, rfl⟩
          · exact Or.inl h2
        · rw [if_neg h] at hne
          exact absurd rfl hne
      · intro h
        have hst : isStaticCell size r c := by
          rcases h with ⟨h1, h2⟩ | ⟨k, hk, h1, h2⟩
          · exact ⟨hs, Or.inr ⟨h1, h2⟩⟩
          · exact ⟨hs, Or.inl ⟨h1.symm, by omega⟩⟩
        obtain ⟨hr, hc⟩ := isStaticCell_inside hst
        refine ⟨⟨hr, hc⟩, ?_⟩
        rw [initialize_test_cells_cell size test r c hr hc, if_pos hst]
        decide
    rw [hset, Finset.card_insert_of_not_mem, Finset.card_image_of_injective, Finset.card_range]
    · intro a b h
      exact (Prod.mk.inj h).2
    · simp
  · intro r c h
    obtain ⟨hr, hc⟩ := isStaticCell_inside ((hstat r c).2 h)
    exact ⟨hr, hc, idx_lt hr hc⟩

/-- Witness for C8: the smallest grid with static cells, `size = 501`. -/
theorem static_cells_and_mask_witness :
    500 < 501 ∧
    (Finset.filter
        (fun q : Nat × Nat => cell 501 (initialize_test_cells 501 (fun _ => 3)) q.1 q.2 ≠ 0)
        (Finset.range 501 ×ˢ Finset.range 501)).card = 332 :=
  ⟨by decide, (static_cells_and_mask 501 (fun _ => 0) (fun _ => 3) (by decide)).2.2.1⟩

/-- C9: for `3 <= size <= 500` there is no static-source cell:
`set_static_cells(size, plate)` returns the grid unchanged and the mask built by
`initialize_test_cells(size, test)` is false in every cell. -/
theorem no_static_cells_up_to_500 (size : Nat) (plate : Plate) (test : Mask)
    (hs : 3 ≤ size) (hs2 : size ≤ 500) :
    set_static_cells size plate = plate ∧
    (∀ r c, r < size → c < size → cell size (initialize_test_cells size test) r c = 0) ∧
    (∀ r c, ¬ isStaticCell size r c) := by
  have hno : ∀ r c, ¬ isStaticCell size r c := by
    intro r c h
    unfold isStaticCell at h
    omega
  refine ⟨?_, ?_, hno⟩
  · unfold set_static_cells
    rw [if_neg (by omega)]
  · intro r c hr hc
    rw [initialize_test_cells_cell size test r c hr hc, if_neg (hno r c)]

/-- Witness for C9: the largest grid without static cells, `size = 500`. -/
theorem no_static_cells_up_to_500_witness :
    3 ≤ 500 ∧ 500 ≤ 500 ∧
      set_static_cells 500 (fun j => (j : ℚ)) = (fun (j : Nat) => (j : ℚ)) ∧
      cell 500 (initialize_test_cells 500 (fun _ => 1)) 400 0 = 0 :=
  ⟨by decide, by decide,
    (no_static_cells_up_to_500 500 (fun j => (j : ℚ)) (fun _ => 1) (by decide) (by decide)).1,
    (no_static_cells_up_to_500 500 (fun j => (j : ℚ)) (fun _ => 1) (by decide) (by decide)).2.1
      400 0 (by decide) (by decide)⟩

/-- C10: for `size >= 3` and every grid `g`, applying `set_static_cells` twice
gives the same grid as applying it once. -/
theorem set_static_cells_idempotent (size : Nat) (g : Plate) (_hs : 3 ≤ size) :
    set_static_cells size (set_static_cells size g) = set_static_cells size g := by
  obtain ⟨S, hS⟩ := set_static_cells_flat (α := Temp) size
  funext j
  by_cases h : S j
  · rw [(hS (set_static_cells size g) j).1 h, (hS g j).1 h]
  · rw [(hS (set_static_cells size g) j).2 h]

/-- Witness for C10: a grid of side 600, where the static cells exist. -/
theorem set_static_cells_idempotent_witness :
    3 ≤ 600 ∧
    set_static_cells 600 (set_static_cells 600 (fun j => (j : ℚ)))
      = set_static_cells 600 (fun j => (j : ℚ)) :=
  ⟨by decide, set_static_cells_idempotent 600 (fun j => (j : ℚ)) (by decide)⟩

/-! ## Counting loops -/

/-- A loop whose trips each add `f k` to a counter. -/
theorem loopFrom_add (body : Nat → Nat → Nat) (f : Nat → Nat)
    (hbody : ∀ k n, body k n = n + f k) :
    ∀ (n i n0 : Nat), loopFrom body n i n0 = n0 + ∑ k in Finset.range n, f (i + k) := by
  intro n
  induction n with
  | zero =>
    intro i n0
    simp [loopFrom]
  | succ n ih =>
    intro i n0
    show loopFrom body n (i + 1) (body i n0) = _
    rw [ih (i + 1) (body i n0), hbody i n0, Finset.sum_range_succ']
    have e : ∀ k, f (i + 1 + k) = f (i + (k + 1)) := by
      intro k
      rw [Nat.add_assoc, Nat.add_comm 1 k]
    simp only [e, Nat.add_zero]
    omega

/-- The rule `loopFrom_add` for `forLoop lo hi`. -/
theorem forLoop_add (body : Nat → Nat → Nat) (f : Nat → Nat)
    (hbody : ∀ k n, body k n = n + f k) (lo hi n0 : Nat) :
    forLoop lo hi body n0 = n0 + ∑ k in Finset.Ico lo hi, f k := by
  unfold forLoop
  rw [loopFrom_add body f hbody, Finset.sum_Ico_eq_sum_range]

/-- The rows and columns visited by the loops `for (i = 1; i < size - 1; i++)`. -/
theorem Ico_eq_Icc_interior (size : Nat) : Finset.Ico 1 (size - 1) = Finset.Icc 1 (size - 2) := by
  ext k
  simp only [Finset.mem_Ico, Finset.mem_Icc]
  omega

/-- The result of `count_cells_by_degrees` as the size of a set of interior cells. -/
theorem count_cells_by_degrees_card (size : Nat) (plate : Plate) (temp : Temp) :
    count_cells_by_degrees size plate temp
      = (Finset.filter (fun q : Nat × Nat => cell size plate q.1 q.2 ≥ temp)
          (Finset.Icc 1 (size - 2) ×ˢ Finset.Icc 1 (size - 2))).card := by
  unfold count_cells_by_degrees
  rw [forLoop_add _
    (fun r => ∑ c in Finset.Ico 1 (size - 1), if cell size plate r c ≥ temp then 1 else 0)]
  · rw [Nat.zero_add, Finset.card_filter, Finset.sum_product, Ico_eq_Icc_interior]
  · intro r n
    rw [forLoop_add _ (fun c => if cell size plate r c ≥ temp then 1 else 0)]
    intro c m
    unfold cell
    by_cases h : plate (idx size r c) ≥ temp
    · rw [if_pos h, if_pos h]
    · rw [if_neg h, if_neg h]
      rfl

/-! ## One trip of the loop, cell by cell -/

/-- After a trip the `next` buffer is the old `current` buffer. -/
theorem iteration_next_plate {α : Type} [Add α] [Sub α] [Mul α] [Div α] [LE α]
    [DecidableRel (fun a b : α => a ≤ b)] [FAbs α]
    [OfNat α 4] [OfNat α 8] [OfNat α 100]
    (size : Nat) (error : α) (test : Mask) (s : StateOf α) :
    (iteration size error test s).next_plate = s.current_plate :=
  (compute_flat size s.current_plate s.next_plate).1

/-- After a trip the `current` buffer is the pinned result of `compute`. -/
theorem iteration_current_plate {α : Type} [Add α] [Sub α] [Mul α] [Div α] [LE α]
    [DecidableRel (fun a b : α => a ≤ b)] [FAbs α]
    [OfNat α 4] [OfNat α 8] [OfNat α 100]
    (size : Nat) (error : α) (test : Mask)
    (s : StateOf α) :
    (iteration size error test s).current_plate
      = set_static_cells size (compute size s.current_plate s.next_plate).next := rfl

/-- Value of the `current` buffer after a trip at every cell of the grid. -/
theorem iteration_current_cell {α : Type} [Add α] [Sub α] [Mul α] [Div α] [LE α]
    [DecidableRel (fun a b : α => a ≤ b)] [FAbs α]
    [OfNat α 4] [OfNat α 8] [OfNat α 100]
    (size : Nat) (error : α) (test : Mask) (s : StateOf α)
    (r c : Nat) (hc : c < size) :
    cell size (iteration size error test s).current_plate r c
      = if isStaticCell size r c then 100
        else if isInterior size r c then
          (cell size s.current_plate (r - 1) c + cell size s.current_plate (r + 1) c
            + cell size s.current_plate r (c - 1) + cell size s.current_plate r (c + 1)
            + 4 * cell size s.current_plate r c) / 8
        else cell size s.next_plate r c := by
  rw [iteration_current_plate, set_static_cells_cell size _ r c hc,
    compute_cell size s.current_plate s.next_plate r c hc]

/-- The counters after a trip. -/
theorem iteration_counters {α : Type} [Add α] [Sub α] [Mul α] [Div α] [LE α]
    [DecidableRel (fun a b : α => a ≤ b)] [FAbs α]
    [OfNat α 4] [OfNat α 8] [OfNat α 100]
    (size : Nat) (error : α) (test : Mask) (s : StateOf α) :
    (iteration size error test s).iterations = s.iterations + 1 ∧
    (iteration size error test s).it = s.it + 1 :=
  ⟨rfl, rfl⟩

/-- The first trip of the loop always runs: `keep_going` starts true and `0 < 500`. -/
theorem hotplate_final_first_trip {α : Type} [Add α] [Sub α] [Mul α] [Div α] [LE α]
    [DecidableRel (fun a b : α => a ≤ b)] [FAbs α]
    [OfNat α 4] [OfNat α 8] [OfNat α 100] [OfNat α 0] [OfNat α 50]
    (size : Nat) (error : α) (mem_current mem_next : (Nat → α))
    (mem_test : Mask) :
    hotplate_final size error mem_current mem_next mem_test
      = hotplate_loop size error (initialize_test_cells size mem_test) 499
          (iteration size error (initialize_test_cells size mem_test)
            (hotplate_init size mem_current mem_next)) := rfl

/-! ## The claims on counting, pinning and the update rule -/

/-- C11: for `size >= 3`, `count_cells_by_degrees(size, plate, temp)` is the number
of interior cells (rows and columns `1 .. size-2`) with `plate[r][c] >= temp`; it
does not depend on the four border rows and columns; and when a set `S` of interior
cells holds exactly `temp` and every other interior cell is below `temp`, the
result is the size of `S`. -/
theorem count_cells_by_degrees_interior (size : Nat) (plate : Plate) (temp : Temp)
    (_hs : 3 ≤ size) :
    count_cells_by_degrees size plate temp
      = (Finset.filter (fun q : Nat × Nat => cell size plate q.1 q.2 ≥ temp)
          (Finset.Icc 1 (size - 2) ×ˢ Finset.Icc 1 (size - 2))).card ∧
    (∀ plate2 : Plate,
      (∀ r c, 1 ≤ r → r ≤ size - 2 → 1 ≤ c → c ≤ size - 2 →
        cell size plate2 r c = cell size plate r c) →
      count_cells_by_degrees size plate2 temp = count_cells_by_degrees size plate temp) ∧
    (∀ S : Finset (Nat × Nat),
      (∀ q ∈ S, 1 ≤ q.1 ∧ q.1 ≤ size - 2 ∧ 1 ≤ q.2 ∧ q.2 ≤ size - 2) →
      (∀ q ∈ S, cell size plate q.1 q.2 = temp) →
      (∀ r c, 1 ≤ r → r ≤ size - 2 → 1 ≤ c → c ≤ size - 2 → (r, c) ∉ S →
        cell size plate r c < temp) →
      count_cells_by_degrees size plate temp = S.card) := by
  refine ⟨count_cells_by_degrees_card size plate temp, ?_, ?_⟩
  · intro plate2 hsame
    rw [count_cells_by_degrees_card, count_cells_by_degrees_card]
    congr 1
    apply Finset.filter_congr
    rintro ⟨r, c⟩ hq
    simp only [Finset.mem_product, Finset.mem_Icc] at hq
    rw [hsame r c hq.1.1 hq.1.2 hq.2.1 hq.2.2]
  · intro S hin heq hlt
    rw [count_cells_by_degrees_card]
    congr 1
    ext ⟨r, c⟩
    simp only [Finset.mem_filter, Finset.mem_product, Finset.mem_Icc]
    constructor
    · rintro ⟨⟨⟨h1, h2⟩, h3, h4⟩, hge⟩
      by_contra hnot
      exact absurd (hlt r c h1 h2 h3 h4 hnot) (not_lt.mpr hge)
    · intro hmem
      obtain ⟨h1, h2, h3, h4⟩ := hin (r, c) hmem
      exact ⟨⟨⟨h1, h2⟩, h3, h4⟩, le_of_eq (heq (r, c) hmem).symm⟩

/-- Witness for C11: a 3 x 3 grid holding 50 in every cell, border included; only
the one interior cell is counted at threshold 50. -/
theorem count_cells_by_degrees_interior_witness :
    3 ≤ 3 ∧ count_cells_by_degrees 3 (fun _ => (50 : Temp)) 50 = 1 :=
  ⟨by decide,
    ((count_cells_by_degrees_interior 3 (fun _ => (50 : Temp)) 50 (by decide)).2.2 {(1, 1)}
      (by
        intro q hq
        rw [Finset.mem_singleton] at hq
        subst hq
        decide)
      (by
        intro q _
        rfl)
      (by
        intro r c h1 h2 h3 h4 hnot
        have hr : r = 1 := by omega
        have hc : c = 1 := by omega
        subst hr
        subst hc
        exact absurd (Finset.mem_singleton_self _) hnot)).trans
      (Finset.card_singleton _)⟩

/-- C12: for `size > 500` the static-source cells (row 400 columns `0..330` and the
cell `(200,500)`) of the current buffer hold 100 right after initialisation, right
after the master-only phase of any trip of the loop, in the state after any number
`k` of trips (the buffers that `compute` and the convergence scan read), and in the
final grid handed to `count_cells_by_degrees`. -/
theorem static_cells_stay_pinned (size : Nat) (error : Temp) (mem_current mem_next : Plate)
    (mem_test : Mask) (r c : Nat) (hs : 500 < size)
    (hst : (r = 400 ∧ c < 331) ∨ (r = 200 ∧ c = 500)) :
    cell size (hotplate_init size mem_current mem_next).current_plate r c = 100 ∧
    (∀ s : HotplateState,
      cell size (iteration size error (initialize_test_cells size mem_test) s).current_plate
        r c = 100) ∧
    (∀ k, cell size (hotplate_loop size error (initialize_test_cells size mem_test) k
        (hotplate_init size mem_current mem_next)).current_plate r c = 100) ∧
    cell size (hotplate_final size error mem_current mem_next mem_test).current_plate r c
      = 100 := by
  have hstat : isStaticCell size r c := ⟨hs, hst⟩
  obtain ⟨hr, hc⟩ := isStaticCell_inside hstat
  have hinit : cell size (hotplate_init size mem_current mem_next).current_plate r c = 100 := by
    show cell size (initialize_plate size mem_current) r c = 100
    rw [initialize_plate_cell size mem_current r c hr hc, if_pos hstat]
  have hstep : ∀ s : HotplateState,
      cell size (iteration size error (initialize_test_cells size mem_test) s).current_plate
        r c = 100 := by
    intro s
    rw [iteration_current_cell size error _ s r c hc, if_pos hstat]
  have hall : ∀ k, cell size (hotplate_loop size error (initialize_test_cells size mem_test) k
      (hotplate_init size mem_current mem_next)).current_plate r c = 100 := by
    intro k
    exact hotplate_loop_inv size error (initialize_test_cells size mem_test)
      (fun s => cell size s.current_plate r c = 100) (fun s _ _ _ => hstep s) k _ hinit
  exact ⟨hinit, hstep, hall, hall MAX_ITERATIONS⟩

/-- Witness for C12: the grid of side 501, tolerance `1/10`, the static cell
`(200,500)` in the final grid. -/
theorem static_cells_stay_pinned_witness :
    500 < 501 ∧
    cell 501 (hotplate_final 501 (1 / 10 : Temp) (fun _ => 0) (fun _ => 0) (fun _ => 0)).current_plate
      200 500 = 100 :=
  ⟨by decide,
    (static_cells_stay_pinned 501 (1 / 10 : Temp) (fun _ => 0) (fun _ => 0) (fun _ => 0) 200 500
      (by decide) (Or.inr ⟨rfl, rfl⟩)).2.2.2⟩

/-- C13: for `size >= 3` and every interior cell `(r, c)`, with `a` the unweighted
mean of the four neighbours in `current`, the value `compute` writes to `next[r][c]`
is `a/2 + current[r][c]/2`; so `next[r][c] - current[r][c]` is half of
`a - current[r][c]`, and the convergence scan, which compares
`|current[r][c] - a|` with `error`, compares twice the size of that update. -/
theorem compute_is_damped_average (size : Nat) (current next : Plate) (r c : Nat)
    (hs : 3 ≤ size) (hr1 : 1 ≤ r) (hr2 : r ≤ size - 2) (hc1 : 1 ≤ c) (hc2 : c ≤ size - 2) :
    cell size (compute size current next).next r c
      = (cell size current (r - 1) c + cell size current (r + 1) c
          + cell size current r (c - 1) + cell size current r (c + 1)) / 4 / 2
        + cell size current r c / 2 ∧
    cell size (compute size current next).next r c - cell size current r c
      = ((cell size current (r - 1) c + cell size current (r + 1) c
          + cell size current r (c - 1) + cell size current r (c + 1)) / 4
        - cell size current r c) / 2 ∧
    (∀ (error : Temp) (mask : Mask),
      exceeds size error current mask r c = true ↔
        (cell size mask r c = 0 ∧
          2 * |cell size (compute size current next).next r c - cell size current r c|
            ≥ error)) := by
  have hval := compute_cell size current next r c (by omega)
  rw [if_pos ⟨hr1, hr2, hc1, hc2⟩] at hval
  have h2 : cell size (compute size current next).next r c - cell size current r c
      = ((cell size current (r - 1) c + cell size current (r + 1) c
          + cell size current r (c - 1) + cell size current r (c + 1)) / 4
        - cell size current r c) / 2 := by
    rw [hval]
    ring
  refine ⟨?_, h2, ?_⟩
  · rw [hval]
    ring
  · intro error mask
    rw [exceeds_iff size error current mask r c hc1, h2, abs_div, abs_two, abs_sub_comm]
    have e : cell size current (r - 1) c + cell size current (r + 1) c
          + cell size current r (c + 1) + cell size current r (c - 1)
        = cell size current (r - 1) c + cell size current (r + 1) c
          + cell size current r (c - 1) + cell size current r (c + 1) := by ring
    rw [e, mul_div_cancel₀ _ (two_ne_zero)]

/-- Witness for C13: the 3 x 3 grid holding its own offsets; the centre value 4
moves by half of `(1 + 7 + 3 + 5)/4 - 4 = 0`. -/
theorem compute_is_damped_average_witness :
    3 ≤ 3 ∧
    cell 3 (compute 3 (fun j => (j : ℚ)) (fun _ => 0)).next 1 1
      - cell 3 (fun j => (j : ℚ)) 1 1 = 0 :=
  ⟨by decide,
    (compute_is_damped_average 3 (fun j => (j : ℚ)) (fun _ => 0) 1 1
      (by decide) (by decide) (by decide) (by decide) (by decide)).2.1.trans
      (by norm_num [cell, idx])⟩

/-! ## How many trips the loop makes -/

/-- The reported count is at least 1. -/
theorem hotplate_final_count_pos {α : Type} [Add α] [Sub α] [Mul α] [Div α] [LE α]
    [DecidableRel (fun a b : α => a ≤ b)] [FAbs α]
    [OfNat α 4] [OfNat α 8] [OfNat α 100] [OfNat α 0] [OfNat α 50]
    (size : Nat) (error : α) (mem_current mem_next : (Nat → α))
    (mem_test : Mask) :
    1 ≤ (hotplate_final size error mem_current mem_next mem_test).iterations := by
  rw [hotplate_final_first_trip]
  apply hotplate_loop_inv size error (initialize_test_cells size mem_test)
    (fun s => 1 ≤ s.iterations)
  · intro s hs _ _
    show 1 ≤ s.iterations + 1
    omega
  · show 1 ≤ (hotplate_init size mem_current mem_next).iterations + 1
    omega

/-- When the scan after the first trip finds nothing, the loop is left after that
one trip. -/
theorem hotplate_final_one_trip {α : Type} [Add α] [Sub α] [Mul α] [Div α] [LE α]
    [DecidableRel (fun a b : α => a ≤ b)] [FAbs α]
    [OfNat α 4] [OfNat α 8] [OfNat α 100] [OfNat α 0] [OfNat α 50]
    (size : Nat) (error : α) (mem_current mem_next : (Nat → α))
    (mem_test : Mask)
    (h : (iteration size error (initialize_test_cells size mem_test)
      (hotplate_init size mem_current mem_next)).keep_going = false) :
    hotplate_final size error mem_current mem_next mem_test
      = iteration size error (initialize_test_cells size mem_test)
          (hotplate_init size mem_current mem_next) := by
  rw [hotplate_final_first_trip]
  apply hotplate_loop_done
  rw [h]
  simp

/-- On a grid of side at most 2 there is no interior cell and the scan leaves the
flag as it was reset. -/
theorem convergence_scan_no_interior (size : Nat) (error : Temp) (g : Plate) (test : Mask)
    (hs : size ≤ 2) : convergence_scan size error g test false = false := by
  cases h : convergence_scan size error g test false
  · rfl
  · obtain ⟨r, c, ⟨h1, h2, _, _⟩, _⟩ := (convergence_scan_cells size error g test).1 h
    omega

/-- On a grid of side at most 2 the run makes one trip and counts no cell. -/
theorem hotplate_no_interior (size : Nat) (error : Temp) (mem_current mem_next : Plate)
    (mem_test : Mask) (hs : size ≤ 2) :
    hotplate size error mem_current mem_next mem_test = (1, 0) := by
  have hkg : (iteration size error (initialize_test_cells size mem_test)
      (hotplate_init size mem_current mem_next)).keep_going = false :=
    convergence_scan_no_interior size error _ _ hs
  have hfin := hotplate_final_one_trip size error mem_current mem_next mem_test hkg
  have hcount : count_cells_by_degrees size
      (hotplate_final size error mem_current mem_next mem_test).current_plate 50 = 0 := by
    rw [count_cells_by_degrees_card]
    have hempty : Finset.Icc 1 (size - 2) = ∅ := by
      apply Finset.Icc_eq_empty
      omega
    rw [hempty]
    rfl
  show ((hotplate_final size error mem_current mem_next mem_test).iterations,
    count_cells_by_degrees size
      (hotplate_final size error mem_current mem_next mem_test).current_plate 50) = (1, 0)
  rw [hcount, hfin]
  rfl

/-- With a tolerance `error <= 0` on a grid of side at least 3 the scan raises the
flag after every trip: cell `(1,1)` is interior and unmasked and its difference is
at least `0`. -/
theorem iteration_keeps_going (size : Nat) (error : Temp) (mem_test : Mask)
    (s : HotplateState) (hs : 3 ≤ size) (he : error ≤ 0) :
    (iteration size error (initialize_test_cells size mem_test) s).keep_going = true := by
  show convergence_scan size error _ (initialize_test_cells size mem_test) false = true
  rw [convergence_scan_cells]
  refine ⟨1, 1, ⟨le_refl 1, by omega, le_refl 1, by omega⟩, ?_, ?_⟩
  · rw [initialize_test_cells_cell size mem_test 1 1 (by omega) (by omega), if_neg]
    unfold isStaticCell
    omega
  · exact le_trans he (abs_nonneg _)

/-- With a tolerance `error <= 0` on a grid of side at least 3 the flag is true in
every state of the loop and the run stops only at the cap. -/
theorem hotplate_runs_to_cap (size : Nat) (error : Temp) (mem_current mem_next : Plate)
    (mem_test : Mask) (hs : 3 ≤ size) (he : error ≤ 0) :
    (∀ k, (hotplate_loop size error (initialize_test_cells size mem_test) k
        (hotplate_init size mem_current mem_next)).keep_going = true) ∧
    (hotplate_final size error mem_current mem_next mem_test).iterations = 500 := by
  have hall : ∀ k, (hotplate_loop size error (initialize_test_cells size mem_test) k
      (hotplate_init size mem_current mem_next)).keep_going = true := by
    intro k
    exact hotplate_loop_inv size error (initialize_test_cells size mem_test)
      (fun s => s.keep_going = true)
      (fun s _ _ _ => iteration_keeps_going size error mem_test s hs he) k _ rfl
  refine ⟨hall, ?_⟩
  obtain ⟨h1, h2, _⟩ := hotplate_final_bookkeeping size error mem_current mem_next mem_test
  have hexit := hotplate_loop_exit size error (initialize_test_cells size mem_test)
    MAX_ITERATIONS (hotplate_init size mem_current mem_next) (Nat.le_add_left _ _)
  have hkg := hall MAX_ITERATIONS
  change ¬ ((hotplate_final size error mem_current mem_next mem_test).it < MAX_ITERATIONS ∧
    (hotplate_final size error mem_current mem_next mem_test).keep_going = true) at hexit
  change (hotplate_final size error mem_current mem_next mem_test).keep_going = true at hkg
  have hcap : ¬ (hotplate_final size error mem_current mem_next mem_test).it
      < MAX_ITERATIONS := fun hlt => hexit ⟨hlt, hkg⟩
  rw [h1]
  unfold MAX_ITERATIONS at h2 hcap
  omega

/-! ## The claims on configurations and trip counts -/

/-- C14, as stated, fails at two inputs: for `size = 2` (too small) `hotplate` makes
one trip, and for `size = 3` with the negative tolerance `-1` it makes 500; in both
cases an iteration count is produced. -/
theorem hotplate_rejects_nothing_counterexample :
    ¬ (((2 : Nat) < 3 ∨ (1 / 10 : ℚ) < 0) →
        (hotplate_final 2 (1 / 10 : Temp) (fun _ => 0) (fun _ => 0) (fun _ => 0)).it = 0) ∧
    ¬ (((3 : Nat) < 3 ∨ (-1 : ℚ) < 0) →
        (hotplate_final 3 (-1 : Temp) (fun _ => 0) (fun _ => 0) (fun _ => 0)).it = 0) := by
  constructor
  · intro h
    have h0 := h (Or.inl (by decide))
    have h1 := (hotplate_final_bookkeeping 2 (1 / 10 : Temp) (fun _ => 0) (fun _ => 0)
      (fun _ => 0)).1
    have h2 : (hotplate 2 (1 / 10 : Temp) (fun _ => 0) (fun _ => 0) (fun _ => 0)).1 = 1 := by
      rw [hotplate_no_interior 2 (1 / 10 : Temp) (fun _ => 0) (fun _ => 0) (fun _ => 0) (by decide)]
    change (hotplate_final 2 (1 / 10 : Temp) (fun _ => 0) (fun _ => 0) (fun _ => 0)).iterations = 1
      at h2
    rw [h1, h0] at h2
    exact absurd h2 (by decide)
  · intro h
    have h0 := h (Or.inr (by norm_num))
    have h1 := (hotplate_final_bookkeeping 3 (-1 : Temp) (fun _ => 0) (fun _ => 0) (fun _ => 0)).1
    have h2 := (hotplate_runs_to_cap 3 (-1 : Temp) (fun _ => 0) (fun _ => 0) (fun _ => 0)
      (by decide) (by norm_num)).2
    rw [h1, h0] at h2
    exact absurd h2 (by decide)

/-- C14, amended: `hotplate` validates nothing.  For every input with `size >= 1`
that has `size < 3` or a negative tolerance it runs its loop and produces both
counts: at least one iteration in every case, iteration count 1 and cell count 0
when `size < 3`, and iteration count 500 when `size >= 3` and the tolerance is
negative. -/
theorem hotplate_runs_on_any_configuration (size : Nat) (error : Temp)
    (mem_current mem_next : Plate) (mem_test : Mask) (_hpos : 1 ≤ size)
    (hinv : size < 3 ∨ error < 0) :
    1 ≤ (hotplate size error mem_current mem_next mem_test).1 ∧
    (size < 3 → hotplate size error mem_current mem_next mem_test = (1, 0)) ∧
    (3 ≤ size → (hotplate size error mem_current mem_next mem_test).1 = 500) := by
  refine ⟨hotplate_final_count_pos size error mem_current mem_next mem_test, ?_, ?_⟩
  · intro h
    exact hotplate_no_interior size error mem_current mem_next mem_test (by omega)
  · intro h
    have he : error < 0 := by
      rcases hinv with h2 | h2
      · omega
      · exact h2
    exact (hotplate_runs_to_cap size error mem_current mem_next mem_test h (le_of_lt he)).2

/-- Witness for amended C14: `size = 2`, tolerance `1/10`. -/
theorem hotplate_runs_on_any_configuration_witness :
    (1 ≤ 2 ∧ (2 < 3 ∨ (1 / 10 : ℚ) < 0)) ∧
    hotplate 2 (1 / 10 : Temp) (fun _ => 0) (fun _ => 0) (fun _ => 0) = (1, 0) :=
  ⟨⟨by decide, Or.inl (by decide)⟩,
    (hotplate_runs_on_any_configuration 2 (1 / 10 : Temp) (fun _ => 0) (fun _ => 0) (fun _ => 0)
      (by decide) (Or.inl (by decide))).2.1 (by decide)⟩

/-- C19: for `size >= 3` and a tolerance `error <= 0`, `hotplate` never converges:
`keep_going` is true after every number of trips and the reported iteration count
is exactly 500. -/
theorem hotplate_nonpositive_tolerance (size : Nat) (error : Temp)
    (mem_current mem_next : Plate) (mem_test : Mask) (hs : 3 ≤ size) (he : error ≤ 0) :
    (∀ k, (hotplate_loop size error (initialize_test_cells size mem_test) k
        (hotplate_init size mem_current mem_next)).keep_going = true) ∧
    (hotplate_final size error mem_current mem_next mem_test).keep_going = true ∧
    (hotplate size error mem_current mem_next mem_test).1 = 500 :=
  ⟨(hotplate_runs_to_cap size error mem_current mem_next mem_test hs he).1,
    (hotplate_runs_to_cap size error mem_current mem_next mem_test hs he).1 MAX_ITERATIONS,
    (hotplate_runs_to_cap size error mem_current mem_next mem_test hs he).2⟩

/-- Witness for C19: the 3 x 3 grid with tolerance 0. -/
theorem hotplate_nonpositive_tolerance_witness :
    (3 ≤ 3 ∧ (0 : ℚ) ≤ 0) ∧
    (hotplate 3 (0 : Temp) (fun _ => 0) (fun _ => 0) (fun _ => 0)).1 = 500 :=
  ⟨⟨by decide, le_refl 0⟩,
    (hotplate_nonpositive_tolerance 3 (0 : Temp) (fun _ => 0) (fun _ => 0) (fun _ => 0)
      (by decide) (le_refl 0)).2.2⟩

/-- C20: for `size >= 3` and every tolerance, `hotplate` reports an iteration count
of at least 1, never 0: the first trip (compute, pin, swap) always runs before the
first convergence scan. -/
theorem hotplate_count_at_least_one (size : Nat) (error : Temp)
    (mem_current mem_next : Plate) (mem_test : Mask) (_hs : 3 ≤ size) :
    1 ≤ (hotplate size error mem_current mem_next mem_test).1 ∧
    (hotplate size error mem_current mem_next mem_test).1 ≠ 0 ∧
    hotplate_final size error mem_current mem_next mem_test
      = hotplate_loop size error (initialize_test_cells size mem_test) 499
          (iteration size error (initialize_test_cells size mem_test)
            (hotplate_init size mem_current mem_next)) := by
  have h := hotplate_final_count_pos size error mem_current mem_next mem_test
  refine ⟨h, ?_, hotplate_final_first_trip size error mem_current mem_next mem_test⟩
  show (hotplate_final size error mem_current mem_next mem_test).iterations ≠ 0
  omega

/-- Witness for C20: the 3 x 3 grid with tolerance 100, which would already pass
the scan, still reports one iteration. -/
theorem hotplate_count_at_least_one_witness :
    3 ≤ 3 ∧ 1 ≤ (hotplate 3 (100 : Temp) (fun _ => 0) (fun _ => 0) (fun _ => 0)).1 :=
  ⟨by decide,
    (hotplate_count_at_least_one 3 (100 : Temp) (fun _ => 0) (fun _ => 0) (fun _ => 0)
      (by decide)).1⟩

/-! ## Invariants of the two buffers -/

/-- Every cell of the initial grid lies in `[0, 100]`. -/
theorem initialize_plate_range (size : Nat) (p : Plate) (r c : Nat)
    (hr : r < size) (hc : c < size) :
    0 ≤ cell size (initialize_plate size p) r c ∧
    cell size (initialize_plate size p) r c ≤ 100 := by
  rw [initialize_plate_cell size p r c hr hc]
  split_ifs <;> norm_num

/-- The initial grid does not depend on what the buffer held before. -/
theorem initialize_plate_cell_indep {α : Type} [OfNat α 0] [OfNat α 50] [OfNat α 100]
    (size : Nat) (p q : (Nat → α)) (r c : Nat)
    (hr : r < size) (hc : c < size) :
    cell size (initialize_plate size p) r c = cell size (initialize_plate size q) r c := by
  rw [initialize_plate_cell size p r c hr hc, initialize_plate_cell size q r c hr hc]

/-- A trip keeps the cells of the new `current` buffer in `[0, 100]` when both
buffers were in that range. -/
theorem iteration_range (size : Nat) (error : Temp) (test : Mask) (s : HotplateState)
    (hcur : ∀ r c, r < size → c < size →
      0 ≤ cell size s.current_plate r c ∧ cell size s.current_plate r c ≤ 100)
    (hnext : ∀ r c, r < size → c < size →
      0 ≤ cell size s.next_plate r c ∧ cell size s.next_plate r c ≤ 100)
    (r c : Nat) (hr : r < size) (hc : c < size) :
    0 ≤ cell size (iteration size error test s).current_plate r c ∧
    cell size (iteration size error test s).current_plate r c ≤ 100 := by
  rw [iteration_current_cell size error test s r c hc]
  by_cases h1 : isStaticCell size r c
  · rw [if_pos h1]
    norm_num
  · rw [if_neg h1]
    by_cases h2 : isInterior size r c
    · rw [if_pos h2]
      obtain ⟨hr1, hr2, hc1, hc2⟩ := h2
      have ha := hcur (r - 1) c (by omega) hc
      have hb := hcur (r + 1) c (by omega) hc
      have hl := hcur r (c - 1) hr (by omega)
      have hd := hcur r (c + 1) hr (by omega)
      have he := hcur r c hr hc
      constructor
      · apply div_nonneg _ (by norm_num)
        linarith [ha.1, hb.1, hl.1, hd.1, he.1]
      · rw [div_le_iff₀ (by norm_num)]
        linarith [ha.2, hb.2, hl.2, hd.2, he.2]
    · rw [if_neg h2]
      exact hnext r c hr hc

/-- In every state of the loop all cells of both buffers lie in `[0, 100]`. -/
theorem hotplate_loop_range (size : Nat) (error : Temp) (mem_current mem_next : Plate)
    (mem_test : Mask) (k : Nat) :
    (∀ r c, r < size → c < size →
      0 ≤ cell size (hotplate_loop size error (initialize_test_cells size mem_test) k
          (hotplate_init size mem_current mem_next)).current_plate r c ∧
      cell size (hotplate_loop size error (initialize_test_cells size mem_test) k
          (hotplate_init size mem_current mem_next)).current_plate r c ≤ 100) ∧
    (∀ r c, r < size → c < size →
      0 ≤ cell size (hotplate_loop size error (initialize_test_cells size mem_test) k
          (hotplate_init size mem_current mem_next)).next_plate r c ∧
      cell size (hotplate_loop size error (initialize_test_cells size mem_test) k
          (hotplate_init size mem_current mem_next)).next_plate r c ≤ 100) := by
  apply hotplate_loop_inv size error (initialize_test_cells size mem_test)
    (fun s =>
      (∀ r c, r < size → c < size →
        0 ≤ cell size s.current_plate r c ∧ cell size s.current_plate r c ≤ 100) ∧
      (∀ r c, r < size → c < size →
        0 ≤ cell size s.next_plate r c ∧ cell size s.next_plate r c ≤ 100))
  · rintro s ⟨hcur, hnext⟩ _ _
    refine ⟨fun r c hr hc => iteration_range size error _ s hcur hnext r c hr hc, ?_⟩
    intro r c hr hc
    rw [iteration_next_plate]
    exact hcur r c hr hc
  · exact ⟨fun r c hr hc => initialize_plate_range size mem_current r c hr hc,
      fun r c hr hc => initialize_plate_range size mem_next r c hr hc⟩

/-- C18: for `size >= 3` and every tolerance, in exact arithmetic every cell of
both buffers lies in `[0, 100]` after initialisation, after any number `k` of
trips of the loop of `hotplate`, and in the final state. -/
theorem buffers_stay_in_range (size : Nat) (error : Temp) (mem_current mem_next : Plate)
    (mem_test : Mask) (r c : Nat) (_hs : 3 ≤ size) (hr : r < size) (hc : c < size) :
    (0 ≤ cell size (hotplate_init size mem_current mem_next).current_plate r c ∧
      cell size (hotplate_init size mem_current mem_next).current_plate r c ≤ 100 ∧
      0 ≤ cell size (hotplate_init size mem_current mem_next).next_plate r c ∧
      cell size (hotplate_init size mem_current mem_next).next_plate r c ≤ 100) ∧
    (∀ k,
      0 ≤ cell size (hotplate_loop size error (initialize_test_cells size mem_test) k
          (hotplate_init size mem_current mem_next)).current_plate r c ∧
      cell size (hotplate_loop size error (initialize_test_cells size mem_test) k
          (hotplate_init size mem_current mem_next)).current_plate r c ≤ 100 ∧
      0 ≤ cell size (hotplate_loop size error (initialize_test_cells size mem_test) k
          (hotplate_init size mem_current mem_next)).next_plate r c ∧
      cell size (hotplate_loop size error (initialize_test_cells size mem_test) k
          (hotplate_init size mem_current mem_next)).next_plate r c ≤ 100) ∧
    (0 ≤ cell size (hotplate_final size error mem_current mem_next mem_test).current_plate r c ∧
      cell size (hotplate_final size error mem_current mem_next mem_test).current_plate r c
        ≤ 100 ∧
      0 ≤ cell size (hotplate_final size error mem_current mem_next mem_test).next_plate r c ∧
      cell size (hotplate_final size error mem_current mem_next mem_test).next_plate r c
        ≤ 100) := by
  have hall := fun k => hotplate_loop_range size error mem_current mem_next mem_test k
  refine ⟨?_, ?_, ?_⟩
  · exact ⟨((hall 0).1 r c hr hc).1, ((hall 0).1 r c hr hc).2,
      ((hall 0).2 r c hr hc).1, ((hall 0).2 r c hr hc).2⟩
  · intro k
    exact ⟨((hall k).1 r c hr hc).1, ((hall k).1 r c hr hc).2,
      ((hall k).2 r c hr hc).1, ((hall k).2 r c hr hc).2⟩
  · exact ⟨((hall MAX_ITERATIONS).1 r c hr hc).1, ((hall MAX_ITERATIONS).1 r c hr hc).2,
      ((hall MAX_ITERATIONS).2 r c hr hc).1, ((hall MAX_ITERATIONS).2 r c hr hc).2⟩

/-- Witness for C18: the centre of the 3 x 3 grid after the run with tolerance
`1/10`. -/
theorem buffers_stay_in_range_witness :
    (3 ≤ 3 ∧ 1 < 3) ∧
    0 ≤ cell 3 (hotplate_final 3 (1 / 10 : Temp) (fun _ => 0) (fun _ => 0)
        (fun _ => 0)).current_plate 1 1 ∧
    cell 3 (hotplate_final 3 (1 / 10 : Temp) (fun _ => 0) (fun _ => 0)
        (fun _ => 0)).current_plate 1 1 ≤ 100 :=
  ⟨⟨by decide, by decide⟩,
    (buffers_stay_in_range 3 (1 / 10 : Temp) (fun _ => 0) (fun _ => 0) (fun _ => 0) 1 1
      (by decide) (by decide) (by decide)).2.2.1,
    (buffers_stay_in_range 3 (1 / 10 : Temp) (fun _ => 0) (fun _ => 0) (fun _ => 0) 1 1
      (by decide) (by decide) (by decide)).2.2.2.1⟩

/-! ## The border and the single-grid step -/

/-- Row and column of an offset inside the grid. -/
theorem idx_div_mod (size r c : Nat) (hc : c < size) :
    idx size r c / size = r ∧ idx size r c % size = c := by
  unfold idx
  have hpos : 0 < size := by omega
  constructor
  · rw [Nat.mul_comm, Nat.mul_add_div hpos, Nat.div_eq_of_lt hc, Nat.add_zero]
  · rw [Nat.mul_comm, Nat.mul_add_mod, Nat.mod_eq_of_lt hc]

/-- Value of the single-grid step at every cell of the grid. -/
theorem single_grid_step_cell {α : Type} [Add α] [Mul α] [Div α] [OfNat α 4] [OfNat α 8]
    [OfNat α 100]
    (size : Nat) (g : (Nat → α)) (r c : Nat) (hc : c < size) :
    cell size (single_grid_step size g) r c
      = if isStaticCell size r c then 100
        else if isInterior size r c then
          (cell size g (r - 1) c + cell size g (r + 1) c + cell size g r (c - 1)
            + cell size g r (c + 1) + 4 * cell size g r c) / 8
        else cell size g r c := by
  unfold single_grid_step
  rw [set_static_cells_cell size _ r c hc]
  obtain ⟨e1, e2⟩ := idx_div_mod size r c hc
  simp only [cell, e1, e2]

/-- The trip counter after `fuel` trips: either every trip ran, or the loop test
has failed. -/
theorem hotplate_loop_it {α : Type} [Add α] [Sub α] [Mul α] [Div α] [LE α]
    [DecidableRel (fun a b : α => a ≤ b)] [FAbs α]
    [OfNat α 4] [OfNat α 8] [OfNat α 100]
    (size : Nat) (error : α) (test : Mask) :
    ∀ (fuel : Nat) (s : StateOf α),
      (hotplate_loop size error test fuel s).it = s.it + fuel ∨
      ¬ ((hotplate_loop size error test fuel s).it < MAX_ITERATIONS ∧
          (hotplate_loop size error test fuel s).keep_going = true) := by
  intro fuel
  induction fuel with
  | zero =>
    intro s
    exact Or.inl rfl
  | succ fuel ih =>
    intro s
    unfold hotplate_loop
    by_cases hc : (decide (s.it < MAX_ITERATIONS) && s.keep_going) = true
    · rw [if_pos hc]
      rcases ih (iteration size error test s) with h | h
      · left
        rw [h]
        show s.it + 1 + fuel = s.it + (fuel + 1)
        omega
      · exact Or.inr h
    · rw [if_neg hc]
      right
      simpa only [Bool.and_eq_true, decide_eq_true_eq] using hc

/-- In every state of the loop the border of both buffers is the border of the
initial grid, and the current buffer is the single-grid step applied `it` times to
the initial grid. -/
theorem hotplate_loop_border {α : Type} [Add α] [Sub α] [Mul α] [Div α] [LE α]
    [DecidableRel (fun a b : α => a ≤ b)] [FAbs α]
    [OfNat α 4] [OfNat α 8] [OfNat α 100] [OfNat α 0] [OfNat α 50]
    (size : Nat) (error : α) (mem_current mem_next : (Nat → α))
    (mem_test : Mask) (k : Nat) :
    (∀ r c, r < size → c < size → ¬ isInterior size r c →
      cell size (hotplate_loop size error (initialize_test_cells size mem_test) k
          (hotplate_init size mem_current mem_next)).current_plate r c
        = cell size (initialize_plate size mem_current) r c ∧
      cell size (hotplate_loop size error (initialize_test_cells size mem_test) k
          (hotplate_init size mem_current mem_next)).next_plate r c
        = cell size (initialize_plate size mem_current) r c) ∧
    (∀ r c, r < size → c < size →
      cell size (hotplate_loop size error (initialize_test_cells size mem_test) k
          (hotplate_init size mem_current mem_next)).current_plate r c
        = cell size ((single_grid_step size)^[(hotplate_loop size error
            (initialize_test_cells size mem_test) k
            (hotplate_init size mem_current mem_next)).it]
            (initialize_plate size mem_current)) r c) := by
  apply hotplate_loop_inv size error (initialize_test_cells size mem_test)
    (fun s =>
      (∀ r c, r < size → c < size → ¬ isInterior size r c →
        cell size s.current_plate r c = cell size (initialize_plate size mem_current) r c ∧
        cell size s.next_plate r c = cell size (initialize_plate size mem_current) r c) ∧
      (∀ r c, r < size → c < size →
        cell size s.current_plate r c
          = cell size ((single_grid_step size)^[s.it] (initialize_plate size mem_current))
              r c))
  · rintro s ⟨hB, hG⟩ _ _
    constructor
    · intro r c hr hc hnot
      rw [iteration_next_plate]
      refine ⟨?_, (hB r c hr hc hnot).1⟩
      rw [iteration_current_cell size error _ s r c hc]
      by_cases h1 : isStaticCell size r c
      · rw [if_pos h1, initialize_plate_cell size mem_current r c hr hc, if_pos h1]
      · rw [if_neg h1, if_neg hnot]
        exact (hB r c hr hc hnot).2
    · intro r c hr hc
      show cell size (iteration size error (initialize_test_cells size mem_test) s).current_plate
          r c
        = cell size ((single_grid_step size)^[s.it + 1] (initialize_plate size mem_current)) r c
      rw [Function.iterate_succ_apply', single_grid_step_cell size _ r c hc,
        iteration_current_cell size error _ s r c hc]
      by_cases h1 : isStaticCell size r c
      · rw [if_pos h1, if_pos h1]
      · rw [if_neg h1, if_neg h1]
        by_cases h2 : isInterior size r c
        · rw [if_pos h2, if_pos h2]
          obtain ⟨hr1, hr2, hc1, hc2⟩ := h2
          rw [hG (r - 1) c (by omega) hc, hG (r + 1) c (by omega) hc,
            hG r (c - 1) hr (by omega), hG r (c + 1) hr (by omega), hG r c hr hc]
        · rw [if_neg h2, if_neg h2, ← hG r c hr hc, (hB r c hr hc h2).1, (hB r c hr hc h2).2]
  · constructor
    · intro r c hr hc _
      exact ⟨rfl, initialize_plate_cell_indep size mem_next mem_current r c hr hc⟩
    · intro r c _ _
      rfl

/-- C17: for `size >= 3`, every tolerance and every number `k` of trips of the loop
of `hotplate`, each boundary cell (row 0, row `size-1`, column 0, column `size-1`)
of the current and of the next buffer holds the value `initialize` gives it, and the
current buffer equals, cell by cell, the single-grid step (interior from the
previous grid, border kept, static cells pinned) applied to the initial grid once
per completed trip; the number of completed trips is `k` unless the loop has
stopped before. -/
theorem border_kept_and_single_grid (size : Nat) (error : Temp)
    (mem_current mem_next : Plate) (mem_test : Mask) (k : Nat) (_hs : 3 ≤ size) :
    (∀ r c, r < size → c < size → (r = 0 ∨ r = size - 1 ∨ c = 0 ∨ c = size - 1) →
      ∀ m : Plate,
        cell size (hotplate_loop size error (initialize_test_cells size mem_test) k
            (hotplate_init size mem_current mem_next)).current_plate r c
          = cell size (initialize_plate size m) r c ∧
        cell size (hotplate_loop size error (initialize_test_cells size mem_test) k
            (hotplate_init size mem_current mem_next)).next_plate r c
          = cell size (initialize_plate size m) r c) ∧
    (∀ r c, r < size → c < size →
      cell size (hotplate_loop size error (initialize_test_cells size mem_test) k
          (hotplate_init size mem_current mem_next)).current_plate r c
        = cell size ((single_grid_step size)^[(hotplate_loop size error
            (initialize_test_cells size mem_test) k
            (hotplate_init size mem_current mem_next)).it]
            (initialize_plate size mem_current)) r c) ∧
    ((hotplate_loop size error (initialize_test_cells size mem_test) k
        (hotplate_init size mem_current mem_next)).it = k ∨
      ¬ ((hotplate_loop size error (initialize_test_cells size mem_test) k
            (hotplate_init size mem_current mem_next)).it < MAX_ITERATIONS ∧
          (hotplate_loop size error (initialize_test_cells size mem_test) k
            (hotplate_init size mem_current mem_next)).keep_going = true)) := by
  obtain ⟨hB, hG⟩ := hotplate_loop_border size error mem_current mem_next mem_test k
  refine ⟨?_, hG, ?_⟩
  · intro r c hr hc hb m
    have hnot : ¬ isInterior size r c := by
      unfold isInterior
      omega
    rw [(hB r c hr hc hnot).1, (hB r c hr hc hnot).2]
    exact ⟨initialize_plate_cell_indep size mem_current m r c hr hc,
      initialize_plate_cell_indep size mem_current m r c hr hc⟩
  · rcases hotplate_loop_it size error (initialize_test_cells size mem_test) k
      (hotplate_init size mem_current mem_next) with h | h
    · left
      rw [h]
      show 0 + k = k
      omega
    · exact Or.inr h

/-- Witness for C17: the 3 x 3 grid, tolerance `1/10`, after two trips; the corner
`(2,0)` still holds what `initialize` wrote. -/
theorem border_kept_and_single_grid_witness :
    3 ≤ 3 ∧
    cell 3 (hotplate_loop 3 (1 / 10 : Temp) (initialize_test_cells 3 (fun _ => 0)) 2
        (hotplate_init 3 (fun _ => (0 : Temp)) (fun _ => 0))).current_plate 2 0
      = cell 3 (initialize_plate 3 (fun _ => (0 : Temp))) 2 0 :=
  ⟨by decide,
    ((border_kept_and_single_grid 3 (1 / 10 : Temp) (fun _ => 0) (fun _ => 0) (fun _ => 0) 2
      (by decide)).1 2 0 (by decide) (by decide) (Or.inr (Or.inl rfl)) (fun _ => 0)).1⟩

/-! ## Following a run grid by grid -/

/-- The test of the convergence scan at `(r, c)` written on cells, in the
operand order of the source. -/
theorem exceeds_cells {α : Type} [Add α] [Sub α] [Div α] [LE α]
    [DecidableRel (fun a b : α => a ≤ b)] [FAbs α] [OfNat α 4]
    (size : Nat) (error : α) (g : Nat → α) (test : Mask) (r c : Nat) (hc : 1 ≤ c) :
    exceeds size error g test r c
      = (decide (FAbs.fabs (cell size g r c - (cell size g (r - 1) c + cell size g (r + 1) c
            + cell size g r (c + 1) + cell size g r (c - 1)) / 4) ≥ error)
          && decide (cell size test r c = 0)) := by
  have e : r * size + c - 1 = r * size + (c - 1) := by omega
  unfold exceeds cell idx
  simp only [e, Nat.add_assoc]

/-- The test of the scan reads the grid only at cells of the grid. -/
theorem exceeds_congr {α : Type} [Add α] [Sub α] [Div α] [LE α]
    [DecidableRel (fun a b : α => a ≤ b)] [FAbs α] [OfNat α 4]
    (size : Nat) (error : α) (g g2 : Nat → α) (test : Mask) (r c : Nat)
    (hg : ∀ r c, r < size → c < size → cell size g r c = cell size g2 r c)
    (hr1 : 1 ≤ r) (hr2 : r < size - 1) (hc1 : 1 ≤ c) (hc2 : c < size - 1) :
    exceeds size error g test r c = exceeds size error g2 test r c := by
  rw [exceeds_cells size error g test r c hc1, exceeds_cells size error g2 test r c hc1,
    hg r c (by omega) (by omega), hg (r - 1) c (by omega) (by omega),
    hg (r + 1) c (by omega) (by omega), hg r (c + 1) (by omega) (by omega),
    hg r (c - 1) (by omega) (by omega)]

/-- The convergence scan gives the same flag on two buffers that agree on the grid. -/
theorem convergence_scan_congr {α : Type} [Add α] [Sub α] [Div α] [LE α]
    [DecidableRel (fun a b : α => a ≤ b)] [FAbs α] [OfNat α 4]
    (size : Nat) (error : α) (g g2 : Nat → α) (test : Mask) (kg : Bool)
    (hg : ∀ r c, r < size → c < size → cell size g r c = cell size g2 r c) :
    convergence_scan size error g test kg = convergence_scan size error g2 test kg := by
  rw [Bool.eq_iff_iff, convergence_scan_flag, convergence_scan_flag]
  constructor
  · rintro (h | ⟨r, h1, h2, c, h3, h4, h5⟩)
    · exact Or.inl h
    · exact Or.inr ⟨r, h1, h2, c, h3, h4,
        (exceeds_congr size error g g2 test r c hg h1 h2 h3 h4) ▸ h5⟩
  · rintro (h | ⟨r, h1, h2, c, h3, h4, h5⟩)
    · exact Or.inl h
    · exact Or.inr ⟨r, h1, h2, c, h3, h4,
        (exceeds_congr size error g g2 test r c hg h1 h2 h3 h4).symm ▸ h5⟩

/-- The single-grid step reads the grid only at cells of the grid. -/
theorem single_grid_step_congr {α : Type} [Add α] [Mul α] [Div α] [OfNat α 4] [OfNat α 8]
    [OfNat α 100]
    (size : Nat) (g g2 : Nat → α)
    (hg : ∀ r c, r < size → c < size → cell size g r c = cell size g2 r c)
    (r c : Nat) (hr : r < size) (hc : c < size) :
    cell size (single_grid_step size g) r c = cell size (single_grid_step size g2) r c := by
  rw [single_grid_step_cell size g r c hc, single_grid_step_cell size g2 r c hc]
  by_cases h1 : isStaticCell size r c
  · rw [if_pos h1, if_pos h1]
  · rw [if_neg h1, if_neg h1]
    by_cases h2 : isInterior size r c
    · rw [if_pos h2, if_pos h2]
      obtain ⟨hr1, hr2, hc1, hc2⟩ := h2
      rw [hg (r - 1) c (by omega) hc, hg (r + 1) c (by omega) hc,
        hg r (c - 1) hr (by omega), hg r (c + 1) hr (by omega), hg r c hr hc]
    · rw [if_neg h2, if_neg h2, hg r c hr hc]

/-- One more unit of fuel runs one more trip when the loop test passes. -/
theorem hotplate_loop_succ {α : Type} [Add α] [Sub α] [Mul α] [Div α] [LE α]
    [DecidableRel (fun a b : α => a ≤ b)] [FAbs α]
    [OfNat α 4] [OfNat α 8] [OfNat α 100]
    (size : Nat) (error : α) (test : Mask) (k : Nat) (s : StateOf α)
    (hit : (hotplate_loop size error test k s).it < MAX_ITERATIONS)
    (hkg : (hotplate_loop size error test k s).keep_going = true) :
    hotplate_loop size error test (k + 1) s
      = iteration size error test (hotplate_loop size error test k s) := by
  rw [hotplate_loop_add size error test 1 k s]
  show (if (decide ((hotplate_loop size error test k s).it < MAX_ITERATIONS)
      && (hotplate_loop size error test k s).keep_going) = true
    then iteration size error test (hotplate_loop size error test k s)
    else hotplate_loop size error test k s) = _
  rw [if_pos]
  simp only [Bool.and_eq_true, decide_eq_true_eq]
  exact ⟨hit, hkg⟩

/-- A run can be followed grid by grid: when `grids 0` is the initial grid, each
`grids (k+1)` is the single-grid step of `grids k`, the scan raises the flag on
`grids 1 .. grids (n-1)` and does not on `grids n`, then `hotplate` stops after `n`
trips with `grids n` as its current grid. -/
theorem hotplate_follows_grids {α : Type} [Add α] [Sub α] [Mul α] [Div α] [LE α]
    [DecidableRel (fun a b : α => a ≤ b)] [FAbs α]
    [OfNat α 4] [OfNat α 8] [OfNat α 100] [OfNat α 0] [OfNat α 50]
    (size : Nat) (error : α) (mem_current mem_next : Nat → α) (mem_test : Mask)
    (grids : Nat → Nat → α) (n : Nat) (hn1 : 1 ≤ n) (hn : n < MAX_ITERATIONS)
    (h0 : ∀ r c, r < size → c < size →
      cell size (initialize_plate size mem_current) r c = cell size (grids 0) r c)
    (hstep : ∀ k, k < n → ∀ r c, r < size → c < size →
      cell size (single_grid_step size (grids k)) r c = cell size (grids (k + 1)) r c)
    (hgo : ∀ k, 1 ≤ k → k < n →
      convergence_scan size error (grids k) (initialize_test_cells size mem_test) false = true)
    (hstop :
      convergence_scan size error (grids n) (initialize_test_cells size mem_test) false
        = false) :
    (hotplate_final size error mem_current mem_next mem_test).iterations = n ∧
    (∀ r c, r < size → c < size →
      cell size (hotplate_final size error mem_current mem_next mem_test).current_plate r c
        = cell size (grids n) r c) := by
  have hiter : ∀ k, k ≤ n → ∀ r c, r < size → c < size →
      cell size ((single_grid_step size)^[k] (initialize_plate size mem_current)) r c
        = cell size (grids k) r c := by
    intro k
    induction k with
    | zero =>
      intro _ r c hr hc
      exact h0 r c hr hc
    | succ k ih =>
      intro hk r c hr hc
      rw [Function.iterate_succ_apply',
        single_grid_step_congr size _ (grids k) (ih (by omega)) r c hr hc]
      exact hstep k (by omega) r c hr hc
  have hrun : ∀ k, k ≤ n →
      (hotplate_loop size error (initialize_test_cells size mem_test) k
        (hotplate_init size mem_current mem_next)).it = k ∧
      (hotplate_loop size error (initialize_test_cells size mem_test) k
        (hotplate_init size mem_current mem_next)).keep_going
        = (if k = 0 then true
           else convergence_scan size error (grids k) (initialize_test_cells size mem_test)
             false) := by
    intro k
    induction k with
    | zero =>
      intro _
      exact ⟨rfl, rfl⟩
    | succ k ih =>
      intro hk
      obtain ⟨hit, hkg⟩ := ih (by omega)
      have hkgt : (hotplate_loop size error (initialize_test_cells size mem_test) k
          (hotplate_init size mem_current mem_next)).keep_going = true := by
        rw [hkg]
        by_cases hk0 : k = 0
        · rw [if_pos hk0]
        · rw [if_neg hk0]
          exact hgo k (by omega) (by omega)
      have hsucc := hotplate_loop_succ size error (initialize_test_cells size mem_test) k
        (hotplate_init size mem_current mem_next) (by rw [hit]; omega) hkgt
      have hit1 : (hotplate_loop size error (initialize_test_cells size mem_test) (k + 1)
          (hotplate_init size mem_current mem_next)).it = k + 1 := by
        rw [hsucc]
        show (hotplate_loop size error (initialize_test_cells size mem_test) k
          (hotplate_init size mem_current mem_next)).it + 1 = k + 1
        rw [hit]
      refine ⟨hit1, ?_⟩
      rw [if_neg (by omega)]
      have hb := (hotplate_loop_border size error mem_current mem_next mem_test (k + 1)).2
      rw [hit1] at hb
      have hkg2 : (hotplate_loop size error (initialize_test_cells size mem_test) (k + 1)
          (hotplate_init size mem_current mem_next)).keep_going
          = convergence_scan size error
              (hotplate_loop size error (initialize_test_cells size mem_test) (k + 1)
                (hotplate_init size mem_current mem_next)).current_plate
              (initialize_test_cells size mem_test) false := by
        rw [hsucc]
        rfl
      rw [hkg2]
      apply convergence_scan_congr
      intro r c hr hc
      rw [hb r c hr hc]
      exact hiter (k + 1) hk r c hr hc
  obtain ⟨hitn, hkgn⟩ := hrun n (le_refl n)
  rw [if_neg (by omega), hstop] at hkgn
  have hfin : hotplate_final size error mem_current mem_next mem_test
      = hotplate_loop size error (initialize_test_cells size mem_test) n
          (hotplate_init size mem_current mem_next) := by
    have hsplit : MAX_ITERATIONS = n + (MAX_ITERATIONS - n) := by omega
    unfold hotplate_final
    rw [hsplit, hotplate_loop_add]
    apply hotplate_loop_done
    rw [hkgn]
    simp
  have hb := (hotplate_loop_border size error mem_current mem_next mem_test n).2
  rw [hitn] at hb
  constructor
  · rw [(hotplate_final_bookkeeping size error mem_current mem_next mem_test).1, hfin]
    exact hitn
  · intro r c hr hc
    rw [hfin, hb r c hr hc]
    exact hiter n (le_refl n) r c hr hc

/-! ## A binary32 run on the 6 x 6 grid -/

/-- Entry 0 of the table is the initial grid. -/
theorem run6_initial : ∀ r, r < 6 → ∀ c, c < 6 →
    cell 6 (initialize_plate 6 (fun _ => (0 : F32))) r c = cell 6 (run6_grid 0) r c := by
  decide

set_option maxRecDepth 1000000 in
set_option maxHeartbeats 4000000 in
/-- Each entry of the table is the single-grid step of the entry before. -/
theorem run6_steps : ∀ k, k < 18 → ∀ r, r < 6 → ∀ c, c < 6 →
    cell 6 (single_grid_step 6 (run6_grid k)) r c = cell 6 (run6_grid (k + 1)) r c := by
  decide

set_option maxRecDepth 1000000 in
set_option maxHeartbeats 4000000 in
/-- With tolerance `0x3F92D521` (about 1.1471292) the scan raises the flag on the
grids after trips 1 to 17. -/
theorem run6_flag_raised : ∀ k, k < 18 → 1 ≤ k →
    convergence_scan 6 (F32.ofBits 0x3F92D521) (run6_grid k)
      (initialize_test_cells 6 (fun _ => 0)) false = true := by
  decide

set_option maxRecDepth 1000000 in
/-- With tolerance `0x3F92D521` the scan does not raise the flag on the grid after
trip 18. -/
theorem run6_flag_down :
    convergence_scan 6 (F32.ofBits 0x3F92D521) (run6_grid 18)
      (initialize_test_cells 6 (fun _ => 0)) false = false := by
  decide

/-- The binary32 run for `size = 6` with tolerance `0x3F92D521` stops after 18
trips, and its final grid is entry 18 of the table. -/
theorem run6_final :
    (hotplate_final 6 (F32.ofBits 0x3F92D521) (fun _ => 0) (fun _ => 0)
      (fun _ => 0)).iterations = 18 ∧
    (∀ r c, r < 6 → c < 6 →
      cell 6 (hotplate_final 6 (F32.ofBits 0x3F92D521) (fun _ => 0) (fun _ => 0)
        (fun _ => 0)).current_plate r c = cell 6 (run6_grid 18) r c) :=
  hotplate_follows_grids 6 (F32.ofBits 0x3F92D521) (fun _ => 0) (fun _ => 0) (fun _ => 0)
    run6_grid 18 (by decide) (by decide)
    (fun r c hr hc => run6_initial r hr c hc)
    (fun k hk r c hr hc => run6_steps k hk r hr c hc)
    (fun k h1 hk => run6_flag_raised k hk h1)
    run6_flag_down

/-! ## The claim on halting before the cap -/

/-- When `hotplate` reports fewer than 500 iterations, the test of the scan is false
at every interior cell of the final current grid, in any arithmetic. -/
theorem hotplate_scan_test_false {α : Type} [Add α] [Sub α] [Mul α] [Div α] [LE α]
    [DecidableRel (fun a b : α => a ≤ b)] [FAbs α]
    [OfNat α 4] [OfNat α 8] [OfNat α 100] [OfNat α 0] [OfNat α 50]
    (size : Nat) (error : α) (mem_current mem_next : Nat → α) (mem_test : Mask)
    (hlt : (hotplate size error mem_current mem_next mem_test).1 < 500) :
    ∀ r c, 1 ≤ r → r ≤ size - 2 → 1 ≤ c → c ≤ size - 2 →
      exceeds size error
        (hotplate_final size error mem_current mem_next mem_test).current_plate
        (initialize_test_cells size mem_test) r c = false := by
  intro r c hr1 hr2 hc1 hc2
  obtain ⟨h1, h2, h3⟩ := hotplate_final_bookkeeping size error mem_current mem_next mem_test
  have hexit := hotplate_loop_exit size error (initialize_test_cells size mem_test)
    MAX_ITERATIONS (hotplate_init size mem_current mem_next) (Nat.le_add_left _ _)
  change ¬ ((hotplate_final size error mem_current mem_next mem_test).it < MAX_ITERATIONS ∧
    (hotplate_final size error mem_current mem_next mem_test).keep_going = true) at hexit
  have hlt2 : (hotplate_final size error mem_current mem_next mem_test).it
      < MAX_ITERATIONS := by
    have : (hotplate_final size error mem_current mem_next mem_test).iterations < 500 := hlt
    rw [h1] at this
    exact this
  have hkg : (hotplate_final size error mem_current mem_next mem_test).keep_going = false := by
    cases hk : (hotplate_final size error mem_current mem_next mem_test).keep_going
    · rfl
    · exact absurd ⟨hlt2, hk⟩ hexit
  have hit : (hotplate_final size error mem_current mem_next mem_test).it ≠ 0 := by
    intro h0
    rw [if_pos h0, hkg] at h3
    exact absurd h3 (by decide)
  rw [if_neg hit, hkg] at h3
  cases hx : exceeds size error
    (hotplate_final size error mem_current mem_next mem_test).current_plate
    (initialize_test_cells size mem_test) r c
  · rfl
  · have hscan := (convergence_scan_flag size error
      (hotplate_final size error mem_current mem_next mem_test).current_plate
      (initialize_test_cells size mem_test) false).2
      (Or.inr ⟨r, hr1, by omega, c, hc1, by omega, hx⟩)
    rw [hscan] at h3
    exact absurd h3 (by decide)

/-- The first output of `hotplate` is the counter `iterations` of the final state. -/
theorem hotplate_count_eq {α : Type} [Add α] [Sub α] [Mul α] [Div α] [LE α]
    [DecidableRel (fun a b : α => a ≤ b)] [FAbs α]
    [OfNat α 4] [OfNat α 8] [OfNat α 100] [OfNat α 0] [OfNat α 50]
    (size : Nat) (error : α) (mem_current mem_next : Nat → α) (mem_test : Mask) :
    (hotplate size error mem_current mem_next mem_test).1
      = (hotplate_final size error mem_current mem_next mem_test).iterations := rfl

/-- C3, as stated, fails in binary32: for `size = 6` and the tolerance with bit
pattern `0x3F92D521` (about 1.1471292) `hotplate` stops after 18 < 500 trips, and
in its final grid the unmasked interior cell `(2,2)` is not within the tolerance of
the mean of its neighbours, neither when the claim's expression is evaluated with
float operations nor in exact arithmetic on the values of the grid. -/
theorem hotplate_converged_before_cap_counterexample :
    (3 ≤ 6 ∧
      (hotplate 6 (F32.ofBits 0x3F92D521) (fun _ => 0) (fun _ => 0) (fun _ => 0)).1 = 18 ∧
      18 < 500) ∧
    ((1 ≤ 2 ∧ 2 ≤ 6 - 2) ∧ cell 6 (initialize_test_cells 6 (fun _ => 0)) 2 2 = 0) ∧
    (cell 6 (hotplate_final 6 (F32.ofBits 0x3F92D521) (fun _ => 0) (fun _ => 0)
        (fun _ => 0)).current_plate 2 2 = F32.ofBits 0x41B6B5EE ∧
      cell 6 (hotplate_final 6 (F32.ofBits 0x3F92D521) (fun _ => 0) (fun _ => 0)
        (fun _ => 0)).current_plate 1 2 = F32.ofBits 0x412F2198 ∧
      cell 6 (hotplate_final 6 (F32.ofBits 0x3F92D521) (fun _ => 0) (fun _ => 0)
        (fun _ => 0)).current_plate 3 2 = F32.ofBits 0x4219A6B1 ∧
      cell 6 (hotplate_final 6 (F32.ofBits 0x3F92D521) (fun _ => 0) (fun _ => 0)
        (fun _ => 0)).current_plate 2 1 = F32.ofBits 0x41691CA4 ∧
      cell 6 (hotplate_final 6 (F32.ofBits 0x3F92D521) (fun _ => 0) (fun _ => 0)
        (fun _ => 0)).current_plate 2 3 = F32.ofBits 0x41B6B5ED) ∧
    ¬ (FAbs.fabs (F32.ofBits 0x41B6B5EE
          - (F32.ofBits 0x412F2198 + F32.ofBits 0x4219A6B1 + F32.ofBits 0x41691CA4
              + F32.ofBits 0x41B6B5ED) / 4)
        < F32.ofBits 0x3F92D521) ∧
    ¬ (|F32.toRat (F32.ofBits 0x41B6B5EE)
          - (F32.toRat (F32.ofBits 0x412F2198) + F32.toRat (F32.ofBits 0x4219A6B1)
              + F32.toRat (F32.ofBits 0x41691CA4) + F32.toRat (F32.ofBits 0x41B6B5ED)) / 4|
        < F32.toRat (F32.ofBits 0x3F92D521)) := by
  obtain ⟨hcount, hcells⟩ := run6_final
  refine ⟨⟨by decide, (hotplate_count_eq 6 _ _ _ _).trans hcount, by decide⟩,
    ⟨⟨by decide, by decide⟩, ?_⟩,
    ⟨(hcells 2 2 (by decide) (by decide)).trans (by decide),
      (hcells 1 2 (by decide) (by decide)).trans (by decide),
      (hcells 3 2 (by decide) (by decide)).trans (by decide),
      (hcells 2 1 (by decide) (by decide)).trans (by decide),
      (hcells 2 3 (by decide) (by decide)).trans (by decide)⟩, by decide, ?_⟩
  · rw [initialize_test_cells_cell 6 _ 2 2 (by decide) (by decide)]
    decide
  · have e1 : F32.ofBits 0x41B6B5EE = F32.finite false 11974126 (-19) := by decide
    have e2 : F32.ofBits 0x412F2198 = F32.finite false 11477400 (-20) := by decide
    have e3 : F32.ofBits 0x4219A6B1 = F32.finite false 10069681 (-18) := by decide
    have e4 : F32.ofBits 0x41691CA4 = F32.finite false 15277220 (-20) := by decide
    have e5 : F32.ofBits 0x41B6B5ED = F32.finite false 11974125 (-19) := by decide
    have e6 : F32.ofBits 0x3F92D521 = F32.finite false 9622817 (-23) := by decide
    have t126 : Int.toNat 126 = 126 := rfl
    have t129 : Int.toNat 129 = 129 := rfl
    have t130 : Int.toNat 130 = 130 := rfl
    have t131 : Int.toNat 131 = 131 := rfl
    rw [e1, e2, e3, e4, e5, e6]
    norm_num [F32.toRat, abs_lt, t126, t129, t130, t131]

/-- C3, amended: for `size >= 3`, when `hotplate` reports fewer than 500
iterations, every interior cell `(r, c)` of the final current grid whose mask entry
is false fails the test of the scan: in binary32,
`fabsf(g[r][c] - (g[r-1][c] + g[r+1][c] + g[r][c+1] + g[r][c-1])/4.0f) >= error`
is false, each operation rounded and in the operand order of the code; in exact
arithmetic, `|g[r][c] - (g[r-1][c] + g[r+1][c] + g[r][c-1] + g[r][c+1])/4| < error`. -/
theorem hotplate_converged_before_cap :
    (∀ (size : Nat) (error : F32) (mem_current mem_next : Nat → F32) (mem_test : Mask),
      3 ≤ size → (hotplate size error mem_current mem_next mem_test).1 < 500 →
      ∀ r c, 1 ≤ r → r ≤ size - 2 → 1 ≤ c → c ≤ size - 2 →
        cell size (initialize_test_cells size mem_test) r c = 0 →
        ¬ (FAbs.fabs
            (cell size (hotplate_final size error mem_current mem_next mem_test).current_plate
                r c
              - (cell size
                    (hotplate_final size error mem_current mem_next mem_test).current_plate
                    (r - 1) c
                  + cell size
                    (hotplate_final size error mem_current mem_next mem_test).current_plate
                    (r + 1) c
                  + cell size
                    (hotplate_final size error mem_current mem_next mem_test).current_plate
                    r (c + 1)
                  + cell size
                    (hotplate_final size error mem_current mem_next mem_test).current_plate
                    r (c - 1)) / 4)
          ≥ error)) ∧
    (∀ (size : Nat) (error : Temp) (mem_current mem_next : Plate) (mem_test : Mask),
      3 ≤ size → (hotplate size error mem_current mem_next mem_test).1 < 500 →
      ∀ r c, 1 ≤ r → r ≤ size - 2 → 1 ≤ c → c ≤ size - 2 →
        cell size (initialize_test_cells size mem_test) r c = 0 →
        |cell size (hotplate_final size error mem_current mem_next mem_test).current_plate r c
          - (cell size (hotplate_final size error mem_current mem_next mem_test).current_plate
                (r - 1) c
              + cell size (hotplate_final size error mem_current mem_next mem_test).current_plate
                (r + 1) c
              + cell size (hotplate_final size error mem_current mem_next mem_test).current_plate
                r (c - 1)
              + cell size (hotplate_final size error mem_current mem_next mem_test).current_plate
                r (c + 1)) / 4| < error) := by
  constructor
  · intro size error mem_current mem_next mem_test _ hlt r c hr1 hr2 hc1 hc2 hmask hge
    have hx := hotplate_scan_test_false size error mem_current mem_next mem_test hlt
      r c hr1 hr2 hc1 hc2
    rw [exceeds_cells size error _ _ r c hc1, hmask, decide_eq_true hge] at hx
    exact absurd hx (by decide)
  · intro size error mem_current mem_next mem_test hs hlt
    exact hotplate_converged_exact size error mem_current mem_next mem_test hs hlt

/-- Witness for amended C3: the binary32 run for `size = 6` with tolerance
`0x3F92D521` stops after 18 trips, and the test of the scan is false at cell `(2,2)`
of its final grid; in exact arithmetic the 3 x 3 grid with tolerance 100 stops after
one trip with its centre within 100 of the mean of its neighbours. -/
theorem hotplate_converged_before_cap_witness :
    ((3 ≤ 6 ∧
        (hotplate 6 (F32.ofBits 0x3F92D521) (fun _ => 0) (fun _ => 0) (fun _ => 0)).1 < 500) ∧
      ¬ (FAbs.fabs
          (cell 6 (hotplate_final 6 (F32.ofBits 0x3F92D521) (fun _ => 0) (fun _ => 0)
              (fun _ => 0)).current_plate 2 2
            - (cell 6 (hotplate_final 6 (F32.ofBits 0x3F92D521) (fun _ => 0) (fun _ => 0)
                  (fun _ => 0)).current_plate (2 - 1) 2
                + cell 6 (hotplate_final 6 (F32.ofBits 0x3F92D521) (fun _ => 0) (fun _ => 0)
                  (fun _ => 0)).current_plate (2 + 1) 2
                + cell 6 (hotplate_final 6 (F32.ofBits 0x3F92D521) (fun _ => 0) (fun _ => 0)
                  (fun _ => 0)).current_plate 2 (2 + 1)
                + cell 6 (hotplate_final 6 (F32.ofBits 0x3F92D521) (fun _ => 0) (fun _ => 0)
                  (fun _ => 0)).current_plate 2 (2 - 1)) / 4)
        ≥ F32.ofBits 0x3F92D521)) ∧
    ((3 ≤ 3 ∧ (hotplate 3 (100 : Temp) (fun _ => 0) (fun _ => 0) (fun _ => 0)).1 < 500) ∧
      |cell 3 (hotplate_final 3 (100 : Temp) (fun _ => 0) (fun _ => 0)
          (fun _ => 0)).current_plate 1 1
        - (cell 3 (hotplate_final 3 (100 : Temp) (fun _ => 0) (fun _ => 0)
              (fun _ => 0)).current_plate (1 - 1) 1
            + cell 3 (hotplate_final 3 (100 : Temp) (fun _ => 0) (fun _ => 0)
              (fun _ => 0)).current_plate (1 + 1) 1
            + cell 3 (hotplate_final 3 (100 : Temp) (fun _ => 0) (fun _ => 0)
              (fun _ => 0)).current_plate 1 (1 - 1)
            + cell 3 (hotplate_final 3 (100 : Temp) (fun _ => 0) (fun _ => 0)
              (fun _ => 0)).current_plate 1 (1 + 1)) / 4| < 100) :=
  ⟨⟨⟨by decide, by
        rw [hotplate_count_eq, run6_final.1]
        decide⟩,
      hotplate_converged_before_cap.1 6 (F32.ofBits 0x3F92D521) (fun _ => 0) (fun _ => 0)
        (fun _ => 0) (by decide)
        (by
          rw [hotplate_count_eq, run6_final.1]
          decide)
        2 2 (by decide) (by decide) (by decide) (by decide)
        (by rw [initialize_test_cells_cell 6 _ 2 2 (by decide) (by decide)]; decide)⟩,
    ⟨⟨by decide, by rw [small_run_count]; decide⟩,
      hotplate_converged_before_cap.2 3 (100 : Temp) (fun _ => 0) (fun _ => 0) (fun _ => 0)
        (by decide) (by rw [small_run_count]; decide)
        1 1 (by decide) (by decide) (by decide) (by decide)
        (by rw [initialize_test_cells_cell 3 _ 1 1 (by decide) (by decide)]; decide)⟩⟩

/-! ## Independence of the schedule -/

/-- The rule `loopFrom_writes` for a loop that visits the entries of a list. -/
theorem foldl_writes {σ α β : Type} (view : σ → Nat → α) (I : σ → Prop)
    (body : β → σ → σ) (W : β → Nat → Prop) (val : Nat → α) (P : β → Prop)
    (hI : ∀ k s, P k → I s → I (body k s))
    (hin : ∀ k s j, P k → I s → W k j → view (body k s) j = val j)
    (hout : ∀ k s j, P k → I s → ¬ W k j → view (body k s) j = view s j) :
    ∀ (l : List β) (s : σ), (∀ k ∈ l, P k) → I s →
      I (l.foldl (fun s k => body k s) s) ∧
      (∀ j, (∃ k ∈ l, W k j) → view (l.foldl (fun s k => body k s) s) j = val j) ∧
      (∀ j, (¬ ∃ k ∈ l, W k j) → view (l.foldl (fun s k => body k s) s) j = view s j) := by
  intro l
  induction l with
  | nil =>
    intro s _ hs
    refine ⟨hs, ?_, ?_⟩
    · rintro j ⟨k, hk, _⟩
      exact absurd hk (List.not_mem_nil k)
    · intro j _
      rfl
  | cons a l ih =>
    intro s hP hs
    have hPa : P a := hP a (List.mem_cons_self a l)
    obtain ⟨h1, h2, h3⟩ := ih (body a s)
      (fun k hk => hP k (List.mem_cons_of_mem a hk)) (hI a s hPa hs)
    rw [List.foldl_cons]
    refine ⟨h1, ?_, ?_⟩
    · rintro j ⟨k, hk, hw⟩
      by_cases hlater : ∃ k ∈ l, W k j
      · exact h2 j hlater
      · rw [h3 j hlater]
        rcases List.mem_cons.1 hk with rfl | hk2
        · exact hin k s j hPa hs hw
        · exact absurd ⟨k, hk2, hw⟩ hlater
    · intro j hj
      have hlater : ¬ ∃ k ∈ l, W k j := by
        rintro ⟨k, hk, hw⟩
        exact hj ⟨k, List.mem_cons_of_mem a hk, hw⟩
      rw [h3 j hlater]
      exact hout a s j hPa hs (fun hw => hj ⟨a, List.mem_cons_self a l, hw⟩)

/-- Two pairs of buffers with the same `current` and the same `next` are equal. -/
theorem buffers_eq {α : Type} (a b : BuffersOf α) (h1 : a.current = b.current)
    (h2 : a.next = b.next) : a = b := by
  cases a
  cases b
  simp only [BuffersOf.mk.injEq]
  exact ⟨h1, h2⟩

/-- The cells of `interior_cells` are the cells of rows and columns `1 .. size-2`. -/
theorem mem_interior_cells (size r c : Nat) :
    (r, c) ∈ interior_cells size ↔ (1 ≤ r ∧ r < size - 1) ∧ 1 ≤ c ∧ c < size - 1 := by
  unfold interior_cells
  simp only [List.mem_flatMap, List.mem_map, List.mem_range'_1, Prod.mk.injEq]
  constructor
  · rintro ⟨a, ⟨h1, h2⟩, b, ⟨h3, h4⟩, rfl, rfl⟩
    exact ⟨⟨h1, by omega⟩, h3, by omega⟩
  · rintro ⟨⟨h1, h2⟩, h3, h4⟩
    exact ⟨r, ⟨h1, by omega⟩, c, ⟨h3, by omega⟩, rfl, rfl⟩

/-- What `compute` does under a schedule, by flat offset. -/
theorem compute_scheduled_flat {α : Type} [Add α] [Mul α] [Div α] [OfNat α 4] [OfNat α 8]
    (size : Nat) (cells : List (Nat × Nat)) (current next : Nat → α)
    (hcells : ∀ p ∈ cells, 1 ≤ p.1 ∧ 1 ≤ p.2) :
    (compute_scheduled size cells current next).current = current ∧
    (∀ j, (∃ p ∈ cells, j = idx size p.1 p.2) →
      (compute_scheduled size cells current next).next j
        = (current (j - size) + current (j + size) + current (j - 1) + current (j + 1)
            + 4 * current j) / 8) ∧
    (∀ j, (¬ ∃ p ∈ cells, j = idx size p.1 p.2) →
      (compute_scheduled size cells current next).next j = next j) :=
  foldl_writes (fun b => b.next) (fun b => b.current = current)
    (fun (p : Nat × Nat) b => compute_store size p.1 p.2 b)
    (fun p j => j = idx size p.1 p.2)
    (fun j => (current (j - size) + current (j + size) + current (j - 1) + current (j + 1)
              + 4 * current j) / 8)
    (fun p => 1 ≤ p.1 ∧ 1 ≤ p.2)
    (by
      intro p s _ hs
      exact hs)
    (by
      rintro p s j ⟨h1, h2⟩ hs rfl
      obtain ⟨e1, e2, e3, e4⟩ := idx_neighbours size p.1 p.2 h1 h2
      show store size s.next p.1 p.2 _ (idx size p.1 p.2) = _
      rw [store_same, e1, e2, e3, e4, hs]
      rfl)
    (by
      intro p s j _ hs hw
      show store size s.next p.1 p.2 _ j = s.next j
      rw [store_other _ _ _ _ _ _ hw])
    cells { current := current, next := next } hcells rfl

/-- Under a schedule that stores every interior cell exactly once, `compute` leaves
the buffers as the sequential loops do. -/
theorem compute_scheduled_eq {α : Type} [Add α] [Mul α] [Div α] [OfNat α 4] [OfNat α 8]
    (size : Nat) (cells : List (Nat × Nat)) (current next : Nat → α)
    (hperm : cells.Perm (interior_cells size)) :
    compute_scheduled size cells current next = compute size current next := by
  have hmem : ∀ r c, (r, c) ∈ cells ↔ (1 ≤ r ∧ r < size - 1) ∧ 1 ≤ c ∧ c < size - 1 :=
    fun r c => (hperm.mem_iff).trans (mem_interior_cells size r c)
  have hcells : ∀ p ∈ cells, 1 ≤ p.1 ∧ 1 ≤ p.2 := by
    rintro ⟨r, c⟩ hp
    exact ⟨((hmem r c).1 hp).1.1, ((hmem r c).1 hp).2.1⟩
  obtain ⟨h1, h2, h3⟩ := compute_scheduled_flat size cells current next hcells
  obtain ⟨g1, g2, g3⟩ := compute_flat size current next
  have hcond : ∀ j, (∃ p ∈ cells, j = idx size p.1 p.2) ↔
      (∃ r, 1 ≤ r ∧ r < size - 1 ∧ ∃ c, 1 ≤ c ∧ c < size - 1 ∧ j = idx size r c) := by
    intro j
    constructor
    · rintro ⟨⟨r, c⟩, hp, hj⟩
      obtain ⟨⟨a1, a2⟩, a3, a4⟩ := (hmem r c).1 hp
      exact ⟨r, a1, a2, c, a3, a4, hj⟩
    · rintro ⟨r, a1, a2, c, a3, a4, hj⟩
      exact ⟨(r, c), (hmem r c).2 ⟨⟨a1, a2⟩, a3, a4⟩, hj⟩
  apply buffers_eq
  · rw [h1, g1]
  · funext j
    by_cases hj : ∃ p ∈ cells, j = idx size p.1 p.2
    · rw [h2 j hj, g2 j ((hcond j).1 hj)]
    · rw [h3 j hj, g3 j (fun h => hj ((hcond j).2 h))]

/-- The private flag of a worker is raised exactly when one of its rows has an
exceeding cell. -/
theorem scan_worker_iff {α : Type} [Add α] [Sub α] [Div α] [LE α]
    [DecidableRel (fun a b : α => a ≤ b)] [FAbs α] [OfNat α 4]
    (size : Nat) (error : α) (g : Nat → α) (test : Mask) (rows : List Nat) :
    scan_worker size error g test rows = true ↔
      ∃ r ∈ rows, ∃ c, 1 ≤ c ∧ c < size - 1 ∧ exceeds size error g test r c = true := by
  have hfold : ∀ (l : List Nat) (kg : Bool),
      (l.foldl (fun kg row => scan_cols size error g test row (size - 1 - 1) 1 kg) kg = true ↔
        (kg = true ∨
          ∃ r ∈ l, ∃ c, 1 ≤ c ∧ c < size - 1 ∧ exceeds size error g test r c = true)) := by
    intro l
    induction l with
    | nil =>
      intro kg
      constructor
      · intro h
        exact Or.inl h
      · rintro (h | ⟨r, hr, _⟩)
        · exact h
        · exact absurd hr (List.not_mem_nil r)
    | cons a l ih =>
      intro kg
      rw [List.foldl_cons, ih, scan_cols_iff]
      constructor
      · rintro ((h | ⟨c, h1, h2, h3⟩) | ⟨r, hr, c, h1, h2, h3⟩)
        · exact Or.inl h
        · exact Or.inr ⟨a, List.mem_cons_self a l, c, h1, by omega, h3⟩
        · exact Or.inr ⟨r, List.mem_cons_of_mem a hr, c, h1, h2, h3⟩
      · rintro (h | ⟨r, hr, c, h1, h2, h3⟩)
        · exact Or.inl (Or.inl h)
        · rcases List.mem_cons.1 hr with rfl | hr2
          · exact Or.inl (Or.inr ⟨c, h1, by omega, h3⟩)
          · exact Or.inr ⟨r, hr2, c, h1, h2, h3⟩
  unfold scan_worker
  rw [hfold]
  constructor
  · rintro (h | h)
    · exact absurd h (by decide)
    · exact h
  · intro h
    exact Or.inr h

/-- The reduction over the workers raises the flag exactly when it was raised on
entry or some worker raised its private flag. -/
theorem convergence_scan_scheduled_iff {α : Type} [Add α] [Sub α] [Div α] [LE α]
    [DecidableRel (fun a b : α => a ≤ b)] [FAbs α] [OfNat α 4]
    (size : Nat) (error : α) (g : Nat → α) (test : Mask) :
    ∀ (workers : List (List Nat)) (kg : Bool),
      (convergence_scan_scheduled size error g test workers kg = true ↔
        (kg = true ∨ ∃ rows ∈ workers, scan_worker size error g test rows = true)) := by
  intro workers
  induction workers with
  | nil =>
    intro kg
    constructor
    · intro h
      exact Or.inl h
    · rintro (h | ⟨rows, hr, _⟩)
      · exact h
      · exact absurd hr (List.not_mem_nil rows)
  | cons a l ih =>
    intro kg
    unfold convergence_scan_scheduled
    rw [List.foldl_cons]
    have ih2 := ih (kg || scan_worker size error g test a)
    unfold convergence_scan_scheduled at ih2
    rw [ih2, Bool.or_eq_true]
    constructor
    · rintro ((h | h) | ⟨rows, hr, h⟩)
      · exact Or.inl h
      · exact Or.inr ⟨a, List.mem_cons_self a l, h⟩
      · exact Or.inr ⟨rows, List.mem_cons_of_mem a hr, h⟩
    · rintro (h | ⟨rows, hr, h⟩)
      · exact Or.inl (Or.inl h)
      · rcases List.mem_cons.1 hr with rfl | hr2
        · exact Or.inl (Or.inr h)
        · exact Or.inr ⟨rows, hr2, h⟩

/-- When every interior row is scanned by exactly one worker, the reduction gives
the flag of the sequential scan. -/
theorem convergence_scan_scheduled_eq {α : Type} [Add α] [Sub α] [Div α] [LE α]
    [DecidableRel (fun a b : α => a ≤ b)] [FAbs α] [OfNat α 4]
    (size : Nat) (error : α) (g : Nat → α) (test : Mask) (workers : List (List Nat))
    (kg : Bool) (hperm : workers.flatten.Perm (List.range' 1 (size - 2))) :
    convergence_scan_scheduled size error g test workers kg
      = convergence_scan size error g test kg := by
  have hmem : ∀ r, (∃ rows ∈ workers, r ∈ rows) ↔ (1 ≤ r ∧ r < size - 1) := by
    intro r
    rw [← List.mem_flatten, hperm.mem_iff, List.mem_range'_1]
    omega
  rw [Bool.eq_iff_iff, convergence_scan_scheduled_iff, convergence_scan_flag]
  constructor
  · rintro (h | ⟨rows, hrows, h⟩)
    · exact Or.inl h
    · obtain ⟨r, hr, c, h1, h2, h3⟩ := (scan_worker_iff size error g test rows).1 h
      obtain ⟨a1, a2⟩ := (hmem r).1 ⟨rows, hrows, hr⟩
      exact Or.inr ⟨r, a1, a2, c, h1, h2, h3⟩
  · rintro (h | ⟨r, a1, a2, c, h1, h2, h3⟩)
    · exact Or.inl h
    · obtain ⟨rows, hrows, hr⟩ := (hmem r).2 ⟨a1, a2⟩
      exact Or.inr ⟨rows, hrows,
        (scan_worker_iff size error g test rows).2 ⟨r, hr, c, h1, h2, h3⟩⟩

/-- Under a valid schedule a trip leaves the state the sequential trip leaves. -/
theorem iteration_scheduled_eq {α : Type} [Add α] [Sub α] [Mul α] [Div α] [LE α]
    [DecidableRel (fun a b : α => a ≤ b)] [FAbs α]
    [OfNat α 4] [OfNat α 8] [OfNat α 100]
    (size workers : Nat) (error : α) (test : Mask) (sch : Schedule) (s : StateOf α)
    (hv : sch.valid size workers) :
    iteration_scheduled size error test sch s = iteration size error test s := by
  unfold iteration_scheduled iteration
  simp only []
  rw [compute_scheduled_eq size sch.compute_cells s.current_plate s.next_plate hv.1,
    convergence_scan_scheduled_eq size error _ test sch.scan_rows false hv.2.2]

/-- Under valid schedules the loop leaves the state the sequential loop leaves. -/
theorem hotplate_loop_scheduled_eq {α : Type} [Add α] [Sub α] [Mul α] [Div α] [LE α]
    [DecidableRel (fun a b : α => a ≤ b)] [FAbs α]
    [OfNat α 4] [OfNat α 8] [OfNat α 100]
    (size workers : Nat) (error : α) (test : Mask) (sched : Nat → Schedule)
    (hv : ∀ k, (sched k).valid size workers) :
    ∀ (fuel : Nat) (s : StateOf α),
      hotplate_loop_scheduled size error test sched fuel s
        = hotplate_loop size error test fuel s := by
  intro fuel
  induction fuel with
  | zero =>
    intro s
    rfl
  | succ fuel ih =>
    intro s
    unfold hotplate_loop_scheduled hotplate_loop
    rw [iteration_scheduled_eq size workers error test (sched s.it) s (hv s.it), ih]

/-- C15: for `size >= 3`, every tolerance and every number `N > 1` of workers,
under any schedules (a fresh one each trip: any order of the stores of `compute`
that stores each interior cell once, any split of the interior rows of the
convergence scan among the `N` workers, private flags joined by `||`) `hotplate`
ends in the same final state, so with the same final grids and the same iteration
count and cell count, as the run with one worker. -/
theorem hotplate_schedule_independent {α : Type} [Add α] [Sub α] [Mul α] [Div α] [LE α]
    [DecidableRel (fun a b : α => a ≤ b)] [FAbs α]
    [OfNat α 4] [OfNat α 8] [OfNat α 100] [OfNat α 0] [OfNat α 50]
    (size : Nat) (error : α) (mem_current mem_next : Nat → α) (mem_test : Mask)
    (workers : Nat) (sched : Nat → Schedule)
    (_hs : 3 ≤ size) (_hw : 1 < workers) (hv : ∀ k, (sched k).valid size workers) :
    hotplate_final_scheduled size error mem_current mem_next mem_test sched
      = hotplate_final size error mem_current mem_next mem_test ∧
    (hotplate_final_scheduled size error mem_current mem_next mem_test sched).current_plate
      = (hotplate_final size error mem_current mem_next mem_test).current_plate ∧
    hotplate_scheduled size error mem_current mem_next mem_test sched
      = hotplate size error mem_current mem_next mem_test := by
  have h : hotplate_final_scheduled size error mem_current mem_next mem_test sched
      = hotplate_final size error mem_current mem_next mem_test :=
    hotplate_loop_scheduled_eq size workers error (initialize_test_cells size mem_test)
      sched hv MAX_ITERATIONS (hotplate_init size mem_current mem_next)
  refine ⟨h, by rw [h], ?_⟩
  unfold hotplate_scheduled hotplate
  rw [h]

/-- Witness for C15: the 4 x 4 grid in binary32 with tolerance `0.1f`
(`0x3DCCCCCD`) and two workers; every trip stores the interior cells in reverse
order and gives row 2 to the first worker, row 1 to the second. -/
theorem hotplate_schedule_independent_witness :
    (3 ≤ 4 ∧ 1 < 2 ∧
      Schedule.valid 4 2
        { compute_cells := [(2, 2), (2, 1), (1, 2), (1, 1)], scan_rows := [[2], [1]] }) ∧
    hotplate_scheduled 4 (F32.ofBits 0x3DCCCCCD) (fun _ => 0) (fun _ => 0) (fun _ => 0)
        (fun _ => { compute_cells := [(2, 2), (2, 1), (1, 2), (1, 1)],
                    scan_rows := [[2], [1]] })
      = hotplate 4 (F32.ofBits 0x3DCCCCCD) (fun _ => 0) (fun _ => 0) (fun _ => 0) :=
  ⟨⟨by decide, by decide, ⟨by decide, by decide, by decide⟩⟩,
    (hotplate_schedule_independent 4 (F32.ofBits 0x3DCCCCCD) (fun _ => 0) (fun _ => 0)
      (fun _ => 0) 2
      (fun _ => { compute_cells := [(2, 2), (2, 1), (1, 2), (1, 1)],
                  scan_rows := [[2], [1]] })
      (by decide) (by decide)
      (fun _ =>
        (show Schedule.valid 4 2
            { compute_cells := [(2, 2), (2, 1), (1, 2), (1, 1)], scan_rows := [[2], [1]] }
          from ⟨by decide, by decide, by decide⟩))).2.2⟩

end Hotplate
